import Mathlib

/-!
Shallow embedding of the matchmaking and session-lifecycle engine of
src/bot.py (an anonymous one-on-one pairing bot for a chat platform).

The in-memory state of the Python class SessionState is modelled explicitly
by the structure BotState.  Calls to the external platform (thread creation,
user fetching, channel edits, message sends) are modelled by outcome
parameters of type XRes: a call either succeeds (ok), raises the platform
HTTP error that the source catches (httpErr), or raises any other exception
(otherErr), which the source does not catch.  Every await of an external
call is a suspension point of the cooperative scheduler; each modelled
operation therefore returns, besides its final state, a trace: the list of
states observable at its suspension points, in order.  In-memory mutations
between two awaits form one uninterrupted block, exactly as in the source,
where only awaits yield control.

Wall-clock time is abstracted: session start times are passed as plain
naturals and the duration histogram is modelled by a counter of
observations (duration_observations).
-/

inductive Mode
  | text
  | voice
deriving DecidableEq

/-- One record of the dict state.active_sessions (source lines 306-312 and
364-371): partner id, mode, start time and formatted session id. -/
structure SessionRec where
  partner : Nat
  mode : Mode
  start_time : Nat
  session_id : String
deriving DecidableEq

/-- Lifecycle of one asyncio task created by register_timeout: pending
(sleeping), cancelled (cancel requested, CancelledError not yet delivered),
cancelledDone (the finally block of timeout_wrapper has run), fired (the
sleep elapsed and the callback ran). -/
inductive TaskStatus
  | pending
  | cancelled
  | cancelledDone
  | fired
deriving DecidableEq

/-- One asyncio task created by SessionState.register_timeout. -/
structure TTask where
  tid : Nat
  user : Nat
  status : TaskStatus
deriving DecidableEq

/-- The timeout bookkeeping of SessionState: the dict user_timeouts
(user id to task), the set of all tasks ever created, a fresh task id
supply, and the list of users for which an expiry callback has fired. -/
structure TimeoutRegistry where
  user_timeouts : List (Nat × Nat)
  tasks : List TTask
  next_task : Nat
  fires : List Nat
deriving DecidableEq

/-- The in-memory state of the Python class SessionState (source lines
72-85).  Queues are FIFO lists with the head oldest; waiting_rooms and
queued_users are sets of user ids (thread handles carried by waiting_rooms
are abstracted away, only membership is ever consulted); active_threads and
active_voice hold the session ids of the live external resources;
session_counter models itertools.count(1) (value of the next draw). -/
structure BotState where
  text_queue : List Nat
  voice_queue : List Nat
  waiting_rooms : List Nat
  active_sessions : List (Nat × SessionRec)
  queued_users : List Nat
  active_threads : List String
  active_voice : List String
  timeouts : TimeoutRegistry
  session_counter : Nat
  duration_observations : Nat
deriving DecidableEq

/-- Outcome of one awaited external-platform call.  httpErr is the
discord.HTTPException family, which the source catches at various points;
otherErr is any other exception, which propagates. -/
inductive XRes
  | ok
  | httpErr
  | otherErr
deriving DecidableEq

/-- Result of running one async operation: whether an uncaught exception
propagated out of it, the final state, and the states observable at its
suspension points. -/
structure AsyncRes where
  raised : Bool
  state : BotState
  trace : List BotState
deriving DecidableEq

/-- Result of one pairing pass: uncaught exception flag, final state, the
pairs on which start_session was invoked (in order), and the observable
trace. -/
structure PassRes where
  raised : Bool
  state : BotState
  pairs : List (Nat × Nat)
  trace : List BotState
deriving DecidableEq

def lookupNat {α : Type} (k : Nat) (l : List (Nat × α)) : Option α :=
  (l.find? (fun p => p.1 == k)).map (fun p => p.2)

def eraseKey {α : Type} (k : Nat) (l : List (Nat × α)) : List (Nat × α) :=
  l.filter (fun p => p.1 ≠ k)

/-- Python dict assignment d[k] = v, as an association list update. -/
def setEntry {α : Type} (k : Nat) (v : α) (l : List (Nat × α)) : List (Nat × α) :=
  (k, v) :: eraseKey k l

/-- Python set.add on a set modelled as a duplicate-free list. -/
def setAdd (u : Nat) (l : List Nat) : List Nat :=
  if u ∈ l then l else u :: l

/-- SessionState.create_session_id formatting (source line 98): a hash sign
followed by the counter value zero-padded to width 4. -/
def formatSessionId (n : Nat) : String :=
  let digits := Nat.repr n
  let pad := String.mk (List.replicate (4 - digits.length) '0')
  "#" ++ pad ++ digits

/-- SessionState.create_session_id: draw the next counter value and format
it.  next(self.session_counter) returns the current value and advances. -/
def createSessionIdS (st : BotState) : String × BotState :=
  (formatSessionId st.session_counter,
   { st with session_counter := st.session_counter + 1 })

/-- The drain loop of SessionState.remove_from_queue (source lines 129-141):
pop every item, keep the ones different from user_id in order, put them
back. -/
def drainLoop (u : Nat) : List Nat → List Nat → List Nat
  | [], temp => temp
  | x :: rest, temp => drainLoop u rest (if x ≠ u then temp ++ [x] else temp)

/-- SessionState.remove_from_queue (source lines 124-145): discard from the
membership set and filter both physical queues.  Its queue.put calls on an
unbounded queue never yield, so the whole operation is one uninterrupted
block. -/
def removeFromQueue (u : Nat) (st : BotState) : BotState :=
  { st with
    queued_users := st.queued_users.filter (fun x => x ≠ u)
    text_queue := drainLoop u st.text_queue []
    voice_queue := drainLoop u st.voice_queue [] }

/-- task.cancel() on the task with this id: a sleeping (pending) task is
marked cancelled; a finished or already cancelled task is unaffected. -/
def cancelTask (tid : Nat) (ts : List TTask) : List TTask :=
  ts.map fun t =>
    if t.tid = tid ∧ t.status = .pending then { t with status := .cancelled } else t

/-- SessionState.cancel_timeout (source lines 117-122): if a handle is
registered for the user, cancel its task and delete the registry entry. -/
def cancelTimeout (u : Nat) (r : TimeoutRegistry) : TimeoutRegistry :=
  match lookupNat u r.user_timeouts with
  | none => r
  | some tid =>
      { r with tasks := cancelTask tid r.tasks
               user_timeouts := eraseKey u r.user_timeouts }

/-- SessionState.register_timeout (source lines 100-115): cancel any
registered handle for the user, then create a fresh pending task and record
it in user_timeouts. -/
def registerTimeout (u : Nat) (r : TimeoutRegistry) : TimeoutRegistry :=
  let r1 := if (lookupNat u r.user_timeouts).isSome then cancelTimeout u r else r
  { r1 with
    tasks := ⟨r1.next_task, u, .pending⟩ :: r1.tasks
    user_timeouts := setEntry u r1.next_task r1.user_timeouts
    next_task := r1.next_task + 1 }

/-- Delivery of CancelledError to a cancelled task: timeout_wrapper's
except clause catches only Exception, so CancelledError reaches the finally
block, which deletes user_timeouts[user_id] by user key (KeyError
suppressed) even if that entry now belongs to a newer task. -/
def finalizeTask (tid : Nat) (r : TimeoutRegistry) : TimeoutRegistry :=
  match r.tasks.find? (fun t => t.tid == tid) with
  | some t =>
      if t.status = .cancelled then
        { r with tasks := r.tasks.map fun x =>
                   if x.tid = tid then { x with status := .cancelledDone } else x
                 user_timeouts := eraseKey t.user r.user_timeouts }
      else r
  | none => r

/-- Expiry of a pending task: asyncio.sleep returns, the callback for the
user runs (a fire is recorded), and the finally block deletes
user_timeouts[user_id] by user key. -/
def expireTask (tid : Nat) (r : TimeoutRegistry) : TimeoutRegistry :=
  match r.tasks.find? (fun t => t.tid == tid) with
  | some t =>
      if t.status = .pending then
        { r with tasks := r.tasks.map fun x =>
                   if x.tid = tid then { x with status := .fired } else x
                 fires := r.fires ++ [t.user]
                 user_timeouts := eraseKey t.user r.user_timeouts }
      else r
  | none => r

/-- Events of the timeout registry: the two SessionState methods, plus the
scheduler delivering cancellation to a cancelled task or expiry to a
pending one. -/
inductive TEvent
  | register (u : Nat)
  | cancel (u : Nat)
  | finalize (tid : Nat)
  | expire (tid : Nat)
deriving DecidableEq

def stepT : TEvent → TimeoutRegistry → TimeoutRegistry
  | .register u, r => registerTimeout u r
  | .cancel u, r => cancelTimeout u r
  | .finalize tid, r => finalizeTask tid r
  | .expire tid, r => expireTask tid r

def runT (evs : List TEvent) (r : TimeoutRegistry) : TimeoutRegistry :=
  evs.foldl (fun acc e => stepT e acc) r

def emptyRegistry : TimeoutRegistry := ⟨[], [], 0, []⟩

/-- Number of live (pending) timeout tasks for a user. -/
def pendingFor (u : Nat) (r : TimeoutRegistry) : Nat :=
  (r.tasks.filter (fun t => t.user = u ∧ t.status = .pending)).length

/-- Number of expiry callbacks that have fired for a user. -/
def firesFor (u : Nat) (r : TimeoutRegistry) : Nat :=
  (r.fires.filter (fun x => x = u)).length

/-- The queue-store invariant claimed by the spec: the membership set and
the union of the physical queue contents are equal as sets. -/
def memEq (st : BotState) : Prop :=
  (∀ u ∈ st.queued_users, u ∈ st.text_queue ∨ u ∈ st.voice_queue) ∧
  (∀ u ∈ st.text_queue, u ∈ st.queued_users) ∧
  (∀ u ∈ st.voice_queue, u ∈ st.queued_users)

instance (st : BotState) : Decidable (memEq st) := by
  unfold memEq; infer_instance

/-- The session-table symmetry invariant claimed by the spec: every entry
has a counterpart entry under its partner key pointing back at it. -/
def sessionSymm (st : BotState) : Prop :=
  ∀ p ∈ st.active_sessions,
    Option.map SessionRec.partner (lookupNat p.2.partner st.active_sessions) = some p.1

instance (st : BotState) : Decidable (sessionSymm st) := by
  unfold sessionSymm; infer_instance

def initialState : BotState :=
  ⟨[], [], [], [], [], [], [], emptyRegistry, 1, 0⟩

/-- The registry bookkeeping is accurate for this user: every pending
timeout task of the user is the one its user_timeouts entry names. -/
def timeoutsCoherent (u : Nat) (r : TimeoutRegistry) : Prop :=
  ∀ t ∈ r.tasks, t.user = u → t.status = .pending →
    lookupNat u r.user_timeouts = some t.tid

instance (u : Nat) (r : TimeoutRegistry) : Decidable (timeoutsCoherent u r) := by
  unfold timeoutsCoherent; infer_instance

/-- The participant is fully reset to IDLE: no session-table entry, no
queue membership, no waiting room, no registered or pending timeout. -/
def idleFor (u : Nat) (st : BotState) : Prop :=
  lookupNat u st.active_sessions = none ∧
  u ∉ st.queued_users ∧
  u ∉ st.waiting_rooms ∧
  lookupNat u st.timeouts.user_timeouts = none ∧
  ∀ t ∈ st.timeouts.tasks, t.user = u → t.status ≠ .pending

instance (u : Nat) (st : BotState) : Decidable (idleFor u st) := by
  unfold idleFor; infer_instance

/-- Outcomes of the external calls a start_session run can make, one field
per call site.  oDel1 and oDel2 are the waiting-room thread.delete calls;
the o-Thread, Fetch, Add, Send fields are the text path (create_thread,
fetch_user and add_user for each participant, the welcome send); guildFound,
oCreate, oEdit, oInvite are the voice path (get_guild result,
create_voice_channel, vc.edit, vc.create_invite).  Unused fields of a run
are ignored. -/
structure StartOutcomes where
  oDel1 : XRes := .ok
  oDel2 : XRes := .ok
  oThread : XRes := .ok
  oFetch1 : XRes := .ok
  oAdd1 : XRes := .ok
  oFetch2 : XRes := .ok
  oAdd2 : XRes := .ok
  oSend : XRes := .ok
  guildFound : Bool := true
  oCreate : XRes := .ok
  oEdit : XRes := .ok
  oInvite : XRes := .ok
deriving DecidableEq

def allOk : StartOutcomes := {}

/-- No call site raises an exception outside the platform HTTP family (the
only family the session-creation code catches). -/
def noOther (o : StartOutcomes) : Prop :=
  o.oDel1 ≠ .otherErr ∧ o.oDel2 ≠ .otherErr ∧ o.oThread ≠ .otherErr ∧
  o.oFetch1 ≠ .otherErr ∧ o.oAdd1 ≠ .otherErr ∧ o.oFetch2 ≠ .otherErr ∧
  o.oAdd2 ≠ .otherErr ∧ o.oSend ≠ .otherErr ∧ o.oCreate ≠ .otherErr ∧
  o.oEdit ≠ .otherErr ∧ o.oInvite ≠ .otherErr

instance (o : StartOutcomes) : Decidable (noOther o) := by
  unfold noOther; infer_instance

/-- Some call of the text session creation failed with an HTTP error. -/
def textFailed (o : StartOutcomes) : Prop :=
  o.oThread = .httpErr ∨ o.oFetch1 = .httpErr ∨ o.oAdd1 = .httpErr ∨
  o.oFetch2 = .httpErr ∨ o.oAdd2 = .httpErr ∨ o.oSend = .httpErr

instance (o : StartOutcomes) : Decidable (textFailed o) := by
  unfold textFailed; infer_instance

/-- Some call of the voice session creation failed with an HTTP error. -/
def voiceFailed (o : StartOutcomes) : Prop :=
  o.oCreate = .httpErr ∨ o.oEdit = .httpErr ∨ o.oInvite = .httpErr

instance (o : StartOutcomes) : Decidable (voiceFailed o) := by
  unfold voiceFailed; infer_instance

/-- The except discord.HTTPException handlers of create_text_session
(source lines 329-335) and create_voice_session (source lines 403-409):
delete both session-table entries if present and discard both ids from the
membership set. -/
def sessionFailCleanup (u1 u2 : Nat) (st : BotState) : BotState :=
  let s1 := { st with active_sessions := eraseKey u1 st.active_sessions
                      queued_users := st.queued_users.filter (fun x => x ≠ u1) }
  { s1 with active_sessions := eraseKey u2 s1.active_sessions
            queued_users := s1.queued_users.filter (fun x => x ≠ u2) }

/-- create_text_session (source lines 289-335).  Awaited calls in order:
channel.create_thread, then for each of user1 and user2 a bot.fetch_user
and a thread.add_user followed by the in-memory session-table assignment,
then active_threads bookkeeping and the welcome thread.send.  HTTP errors
jump to the cleanup handler; any other exception propagates with the state
as it stands. -/
def createTextSession (u1 u2 : Nat) (sid : String) (t : Nat)
    (o : StartOutcomes) (st : BotState) : AsyncRes :=
  match o.oThread with
  | .httpErr => ⟨false, sessionFailCleanup u1 u2 st, [st]⟩
  | .otherErr => ⟨true, st, [st]⟩
  | .ok =>
  match o.oFetch1 with
  | .httpErr => ⟨false, sessionFailCleanup u1 u2 st, [st, st]⟩
  | .otherErr => ⟨true, st, [st, st]⟩
  | .ok =>
  match o.oAdd1 with
  | .httpErr => ⟨false, sessionFailCleanup u1 u2 st, [st, st, st]⟩
  | .otherErr => ⟨true, st, [st, st, st]⟩
  | .ok =>
  let stA := { st with active_sessions :=
                 setEntry u1 ⟨u2, .text, t, sid⟩ st.active_sessions }
  match o.oFetch2 with
  | .httpErr => ⟨false, sessionFailCleanup u1 u2 stA, [st, st, st, stA]⟩
  | .otherErr => ⟨true, stA, [st, st, st, stA]⟩
  | .ok =>
  match o.oAdd2 with
  | .httpErr => ⟨false, sessionFailCleanup u1 u2 stA, [st, st, st, stA, stA]⟩
  | .otherErr => ⟨true, stA, [st, st, st, stA, stA]⟩
  | .ok =>
  let stB := { stA with active_sessions :=
                 setEntry u2 ⟨u1, .text, t, sid⟩ stA.active_sessions }
  let stC := { stB with active_threads := sid :: stB.active_threads.filter (fun x => x ≠ sid) }
  match o.oSend with
  | .httpErr => ⟨false, sessionFailCleanup u1 u2 stC, [st, st, st, stA, stA, stC]⟩
  | .otherErr => ⟨true, stC, [st, st, st, stA, stA, stC]⟩
  | .ok => ⟨false, stC, [st, st, st, stA, stA, stC]⟩

/-- create_voice_session (source lines 337-409).  If the guild is not found
the function returns at once.  Awaited calls in order:
guild.create_voice_channel, vc.edit; then both session-table entries and
the active_voice entry are written in one block with no await between;
then vc.create_invite and the two notification sends, whose failures are
swallowed inside their loop. -/
def createVoiceSession (u1 u2 : Nat) (sid : String) (t : Nat)
    (o : StartOutcomes) (st : BotState) : AsyncRes :=
  if o.guildFound = false then ⟨false, st, []⟩
  else
  match o.oCreate with
  | .httpErr => ⟨false, sessionFailCleanup u1 u2 st, [st]⟩
  | .otherErr => ⟨true, st, [st]⟩
  | .ok =>
  match o.oEdit with
  | .httpErr => ⟨false, sessionFailCleanup u1 u2 st, [st, st]⟩
  | .otherErr => ⟨true, st, [st, st]⟩
  | .ok =>
  let both := setEntry u2 ⟨u1, .voice, t, sid⟩ (setEntry u1 ⟨u2, .voice, t, sid⟩ st.active_sessions)
  let stA := { st with active_sessions := both
                       active_voice := sid :: st.active_voice.filter (fun x => x ≠ sid) }
  match o.oInvite with
  | .httpErr => ⟨false, sessionFailCleanup u1 u2 stA, [st, st, stA]⟩
  | .otherErr => ⟨true, stA, [st, st, stA]⟩
  | .ok => ⟨false, stA, [st, st, stA, stA, stA]⟩

/-- One iteration of the waiting-room cleanup loop of start_session (source
lines 267-278): if the user holds a waiting room, await thread.delete (HTTP
failure logged and swallowed, any other failure propagates), then in one
block delete the waiting room, cancel the timeout and discard the id from
the membership set.  Without a waiting room only the cancel and discard
run, with no suspension. -/
def waitingCleanupOne (uid : Nat) (oDel : XRes) (st : BotState) : AsyncRes :=
  if uid ∈ st.waiting_rooms then
    match oDel with
    | .otherErr => ⟨true, st, [st]⟩
    | _ =>
        ⟨false,
         { st with waiting_rooms := st.waiting_rooms.filter (fun x => x ≠ uid)
                   timeouts := cancelTimeout uid st.timeouts
                   queued_users := st.queued_users.filter (fun x => x ≠ uid) },
         [st]⟩
  else
    ⟨false,
     { st with timeouts := cancelTimeout uid st.timeouts
               queued_users := st.queued_users.filter (fun x => x ≠ uid) },
     []⟩

/-- start_session (source lines 263-287): clean up both waiting rooms, draw
a fresh session id, and dispatch to the mode-specific creation. -/
def startSession (u1 u2 : Nat) (mode : Mode) (o : StartOutcomes)
    (st : BotState) : AsyncRes :=
  let r1 := waitingCleanupOne u1 o.oDel1 st
  if r1.raised then r1
  else
    let r2 := waitingCleanupOne u2 o.oDel2 r1.state
    if r2.raised then ⟨true, r2.state, r1.trace ++ r2.trace⟩
    else
      let p := createSessionIdS r2.state
      match mode with
      | .text =>
          let r := createTextSession u1 u2 p.1 0 o p.2
          ⟨r.raised, r.state, r1.trace ++ r2.trace ++ r.trace⟩
      | .voice =>
          let r := createVoiceSession u1 u2 p.1 0 o p.2
          ⟨r.raised, r.state, r1.trace ++ r2.trace ++ r.trace⟩

/-- end_session (source lines 412-451).  Under the session lock: no-op
guard, then in one uninterrupted block pop the id, observe the duration and
pop the partner when the partner id is truthy (nonzero) and present.
The text path then awaits thread.send (whose failure propagates) and
thread.delete (suppressed) before dropping the active_threads entry; the
voice path awaits vc.delete (suppressed) before dropping the active_voice
entry. -/
def endSession (u : Nat) (oSend : XRes) (st : BotState) : AsyncRes :=
  match lookupNat u st.active_sessions with
  | none => ⟨false, st, []⟩
  | some sess =>
    let st1 := { st with active_sessions := eraseKey u st.active_sessions
                         duration_observations := st.duration_observations + 1 }
    let st2 :=
      if sess.partner ≠ 0 ∧ (lookupNat sess.partner st1.active_sessions).isSome then
        { st1 with active_sessions := eraseKey sess.partner st1.active_sessions }
      else st1
    match sess.mode with
    | .text =>
      match oSend with
      | .ok =>
          ⟨false,
           { st2 with active_threads := st2.active_threads.filter (fun x => x ≠ sess.session_id) },
           [st2, st2]⟩
      | _ => ⟨true, st2, [st2]⟩
    | .voice =>
        ⟨false,
         { st2 with active_voice := st2.active_voice.filter (fun x => x ≠ sess.session_id) },
         [st2]⟩

/-- Outcomes of the external calls of enqueue_user: bot.fetch_user and the
waiting-room provisioning (create_thread, add_user and the embed send of
create_waiting_room, which the same try of enqueue_user covers). -/
structure EnqOutcomes where
  oFetch : XRes := .ok
  oRoom : XRes := .ok
deriving DecidableEq

def allOkEnq : EnqOutcomes := {}

/-- create_waiting_room (source lines 203-233): draws a session id from the
shared counter before any await, then awaits create_thread, add_user and
the embed send.  Only the counter consumption is in-memory state; a failure
of any of the awaited calls is modelled by one outcome. -/
def createWaitingRoomM (u : Nat) (o : XRes) (st : BotState) : AsyncRes :=
  let p := createSessionIdS st
  match o with
  | .ok => ⟨false, p.2, [p.2, p.2, p.2]⟩
  | _ => ⟨true, p.2, [p.2]⟩

/-- Result of enqueue_user: the returned boolean, final state, trace. -/
structure EnqRes where
  ok : Bool
  state : BotState
  trace : List BotState
deriving DecidableEq

/-- enqueue_user (source lines 454-485): refuse when already in a session
or already queued; await fetch_user and the waiting-room creation, whose
failures are caught and yield False; record the waiting room; then under
the queue lock add to the membership set and append to the mode queue in
one block (queue.put on an unbounded queue never yields); finally register
the search timeout and return True. -/
def enqueueUser (u : Nat) (mode : Mode) (o : EnqOutcomes) (st : BotState) : EnqRes :=
  if (lookupNat u st.active_sessions).isSome then ⟨false, st, []⟩
  else if u ∈ st.queued_users then ⟨false, st, []⟩
  else
    match o.oFetch with
    | .ok =>
      let r := createWaitingRoomM u o.oRoom st
      if r.raised then ⟨false, r.state, st :: r.trace⟩
      else
        let st2 := { r.state with waiting_rooms := u :: r.state.waiting_rooms.filter (fun x => x ≠ u) }
        let st3 :=
          match mode with
          | .text => { st2 with queued_users := setAdd u st2.queued_users
                                text_queue := st2.text_queue ++ [u] }
          | .voice => { st2 with queued_users := setAdd u st2.queued_users
                                 voice_queue := st2.voice_queue ++ [u] }
        let st4 := { st3 with timeouts := registerTimeout u st3.timeouts }
        ⟨true, st4, st :: r.trace⟩
    | _ => ⟨false, st, [st]⟩

/-- handle_leave (source lines 570-593): when the user holds a waiting
room, the cancel-search block runs (sends and delete, all failures caught)
and its finally cancels the timeout, deletes the waiting room and removes
the user from the queues; then an active session, if any, is ended. -/
def handleLeave (u : Nat) (oEnd : XRes) (st : BotState) : AsyncRes :=
  let r1 :=
    if u ∈ st.waiting_rooms then
      let s := removeFromQueue u
        { st with timeouts := cancelTimeout u st.timeouts
                  waiting_rooms := st.waiting_rooms.filter (fun x => x ≠ u) }
      (⟨false, s, [st, st, st]⟩ : AsyncRes)
    else ⟨false, st, []⟩
  if (lookupNat u r1.state.active_sessions).isSome then
    let r2 := endSession u oEnd r1.state
    ⟨r2.raised, r2.state, r1.trace ++ r2.trace⟩
  else r1

/-- The drain loop of text_pairer (source lines 488-514), fuel-indexed.
While at least two ids are queued: pop the two oldest, check that both
still hold a waiting room; if so invoke start_session (recording the pair),
else re-put each still-valid id at the tail and remove each invalid id via
remove_from_queue.  The fuel only bounds the iteration count: every
iteration shrinks the text queue by at least one, so running the loop with
fuel equal to the current queue length is exactly the source's while loop
(theorem textPairerLoop_completes below). -/
def textPairerLoop (o : Nat → StartOutcomes) : Nat → Nat → BotState → PassRes
  | 0, _, st => ⟨false, st, [], []⟩
  | fuel + 1, i, st =>
    match st.text_queue with
    | u1 :: u2 :: rest =>
      let stP := { st with text_queue := rest }
      if u1 ∈ stP.waiting_rooms ∧ u2 ∈ stP.waiting_rooms then
        let r := startSession u1 u2 .text (o i) stP
        if r.raised then ⟨true, r.state, [(u1, u2)], r.trace⟩
        else
          let rc := textPairerLoop o fuel (i + 1) r.state
          ⟨rc.raised, rc.state, (u1, u2) :: rc.pairs, r.trace ++ rc.trace⟩
      else
        let st1 := if u1 ∈ stP.waiting_rooms
                   then { stP with text_queue := stP.text_queue ++ [u1] }
                   else removeFromQueue u1 stP
        let st2 := if u2 ∈ stP.waiting_rooms
                   then { st1 with text_queue := st1.text_queue ++ [u2] }
                   else removeFromQueue u2 st1
        textPairerLoop o fuel i st2
    | _ => ⟨false, st, [], []⟩

/-- One tick of the text_pairer task. -/
def textPairerPass (o : Nat → StartOutcomes) (st : BotState) : PassRes :=
  textPairerLoop o st.text_queue.length 0 st

/-- The drain loop of voice_pairer (source lines 516-542), identical to the
text one on the voice queue. -/
def voicePairerLoop (o : Nat → StartOutcomes) : Nat → Nat → BotState → PassRes
  | 0, _, st => ⟨false, st, [], []⟩
  | fuel + 1, i, st =>
    match st.voice_queue with
    | u1 :: u2 :: rest =>
      let stP := { st with voice_queue := rest }
      if u1 ∈ stP.waiting_rooms ∧ u2 ∈ stP.waiting_rooms then
        let r := startSession u1 u2 .voice (o i) stP
        if r.raised then ⟨true, r.state, [(u1, u2)], r.trace⟩
        else
          let rc := voicePairerLoop o fuel (i + 1) r.state
          ⟨rc.raised, rc.state, (u1, u2) :: rc.pairs, r.trace ++ rc.trace⟩
      else
        let st1 := if u1 ∈ stP.waiting_rooms
                   then { stP with voice_queue := stP.voice_queue ++ [u1] }
                   else removeFromQueue u1 stP
        let st2 := if u2 ∈ stP.waiting_rooms
                   then { st1 with voice_queue := st1.voice_queue ++ [u2] }
                   else removeFromQueue u2 st1
        voicePairerLoop o fuel i st2
    | _ => ⟨false, st, [], []⟩

/-- One tick of the voice_pairer task. -/
def voicePairerPass (o : Nat → StartOutcomes) (st : BotState) : PassRes :=
  voicePairerLoop o st.voice_queue.length 0 st

/-! Concrete scenario states used by the claim theorems. -/

/-- Two valid users queued for text. -/
def stC1 : BotState :=
  { initialState with text_queue := [1, 2], queued_users := [1, 2], waiting_rooms := [1, 2] }

/-- The first observable state of the pairing pass on stC1 (the suspension
inside start_session right after the pair was popped). -/
def c1BadState : BotState :=
  ((textPairerPass (fun _ => allOk) stC1).trace.getD 0 initialState)

/-- A fully successful text session creation from an empty session table. -/
def c2Run : AsyncRes := createTextSession 1 2 "#0001" 0 allOk initialState

/-- The observable state of c2Run at the fetch_user suspension for the
second participant, after the first table entry was written. -/
def c2BadState : BotState := c2Run.trace.getD 3 initialState

/-- A symmetric session between participants 1 and 0. -/
def stC3 : BotState :=
  { initialState with active_sessions := [(1, ⟨0, .text, 0, "#0001"⟩), (0, ⟨1, .text, 0, "#0001"⟩)] }

/-- A symmetric text session between participants 1 and 2. -/
def stSym12 : BotState :=
  { initialState with
      active_sessions := [(1, ⟨2, .text, 0, "#0001"⟩), (2, ⟨1, .text, 0, "#0001"⟩)] }

/-- Two valid popped users, with a non-HTTP failure at the second
fetch_user during text session creation. -/
def stC4 : BotState :=
  { initialState with queued_users := [1, 2], waiting_rooms := [1, 2] }

def c4Run : AsyncRes := startSession 1 2 .text { oFetch2 := .otherErr } stC4

/-- Four valid users queued for text in arrival order. -/
def st4 : BotState :=
  { initialState with text_queue := [1, 2, 3, 4], queued_users := [1, 2, 3, 4],
                      waiting_rooms := [1, 2, 3, 4] }

/-- Five users queued for text; user 2 no longer holds a waiting room. -/
def st5 : BotState :=
  { initialState with text_queue := [1, 2, 3, 4, 5], queued_users := [1, 2, 3, 4, 5],
                      waiting_rooms := [1, 3, 4, 5] }

/-- Five users queued for text; user 1 no longer holds a waiting room. -/
def st6 : BotState :=
  { initialState with text_queue := [1, 2, 3, 4, 5], queued_users := [1, 2, 3, 4, 5],
                      waiting_rooms := [2, 3, 4, 5] }

/-- The event sequence refuting the timeout-registry claim: two quick
registrations for user 1, then the scheduler delivers CancelledError to the
first task (whose finally deletes the fresh registry entry of the second
task), then a third registration, which finds no registry entry and so
cancels nothing. -/
def trC6 : List TEvent := [.register 1, .register 1, .finalize 0, .register 1]

/-- C10 scenario: two text enqueues, a pairing tick, two more enqueues,
another pairing tick.  Waiting rooms consume counter values 1, 2, 4, 5 and
the two sessions get ids 3 and 6. -/
def c10s1 : BotState := (enqueueUser 1 .text allOkEnq initialState).state
def c10s2 : BotState := (enqueueUser 2 .text allOkEnq c10s1).state
def c10p1 : BotState := (textPairerPass (fun _ => allOk) c10s2).state
def c10s3 : BotState := (enqueueUser 3 .text allOkEnq c10p1).state
def c10s4 : BotState := (enqueueUser 4 .text allOkEnq c10s3).state
def c10p2 : BotState := (textPairerPass (fun _ => allOk) c10s4).state

/-! Helper lemmas about the list primitives. -/

theorem drainLoop_acc (u : Nat) :
    ∀ (l acc : List Nat), drainLoop u l acc = acc ++ l.filter (fun x => x ≠ u) := by
  intro l
  induction l with
  | nil => intro acc; simp [drainLoop]
  | cons x rest ih =>
      intro acc
      by_cases h : x = u
      · simp [drainLoop, h, ih]
      · simp [drainLoop, h, ih]

theorem drainLoop_eq_filter (u : Nat) (l : List Nat) :
    drainLoop u l [] = l.filter (fun x => x ≠ u) := by
  simpa using drainLoop_acc u l []

theorem filter_idem {α : Type} (p : α → Bool) (l : List α) :
    (l.filter p).filter p = l.filter p := by
  induction l with
  | nil => rfl
  | cons x rest ih =>
      by_cases h : p x = true
      · simp [List.filter_cons, h, ih]
      · simp [List.filter_cons, h, ih]

theorem filter_ne_of_not_mem {u : Nat} {l : List Nat} (h : u ∉ l) :
    l.filter (fun x => x ≠ u) = l := by
  apply List.filter_eq_self.mpr
  intro a ha
  simp only [decide_eq_true_eq]
  exact fun hc => h (hc ▸ ha)

theorem lookupNat_cons {α : Type} (k a : Nat) (v : α) (l : List (Nat × α)) :
    lookupNat k ((a, v) :: l) = if a = k then some v else lookupNat k l := by
  by_cases h : a = k <;> simp [lookupNat, List.find?_cons, h]

theorem mem_eraseKey {α : Type} {p : Nat × α} {k : Nat} {l : List (Nat × α)} :
    p ∈ eraseKey k l ↔ p ∈ l ∧ p.1 ≠ k := by
  simp [eraseKey, List.mem_filter]

theorem lookupNat_eraseKey_self {α : Type} (k : Nat) (l : List (Nat × α)) :
    lookupNat k (eraseKey k l) = none := by
  induction l with
  | nil => rfl
  | cons p rest ih =>
      by_cases h : p.1 = k
      · simpa [eraseKey, List.filter_cons, h] using ih
      · obtain ⟨a, v⟩ := p
        simp only at h
        simpa [eraseKey, List.filter_cons, h, lookupNat_cons] using ih

theorem lookupNat_eraseKey_ne {α : Type} {k k2 : Nat} (h : k ≠ k2) (l : List (Nat × α)) :
    lookupNat k (eraseKey k2 l) = lookupNat k l := by
  induction l with
  | nil => rfl
  | cons p rest ih =>
      obtain ⟨a, v⟩ := p
      by_cases ha : a = k2
      · subst ha
        have : a ≠ k := fun hc => h hc.symm
        simpa [eraseKey, List.filter_cons, lookupNat_cons, this] using ih
      · by_cases hk : a = k
        · subst hk
          simp [eraseKey, List.filter_cons, ha, lookupNat_cons]
        · simpa [eraseKey, List.filter_cons, ha, lookupNat_cons, hk] using ih

theorem lookupNat_setEntry_self {α : Type} (k : Nat) (v : α) (l : List (Nat × α)) :
    lookupNat k (setEntry k v l) = some v := by
  simp [setEntry, lookupNat_cons]

theorem lookupNat_setEntry_ne {α : Type} {k k2 : Nat} (h : k ≠ k2) (v : α) (l : List (Nat × α)) :
    lookupNat k (setEntry k2 v l) = lookupNat k l := by
  have hne : k2 ≠ k := fun hc => h hc.symm
  rw [setEntry, lookupNat_cons, if_neg hne, lookupNat_eraseKey_ne h]

theorem lookupNat_eq_none_iff {α : Type} {k : Nat} {l : List (Nat × α)} :
    lookupNat k l = none ↔ ∀ p ∈ l, p.1 ≠ k := by
  induction l with
  | nil => simp [lookupNat]
  | cons p rest ih =>
      obtain ⟨a, v⟩ := p
      by_cases h : a = k
      · subst h; simp [lookupNat_cons]
      · simp [lookupNat_cons, h, ih]

theorem lookupNat_some_mem {α : Type} {k : Nat} {v : α} {l : List (Nat × α)}
    (h : lookupNat k l = some v) : (k, v) ∈ l := by
  induction l with
  | nil => simp [lookupNat] at h
  | cons p rest ih =>
      obtain ⟨a, w⟩ := p
      by_cases ha : a = k
      · subst ha
        rw [lookupNat_cons, if_pos rfl] at h
        obtain rfl : w = v := by simpa using h
        exact List.mem_cons_self _ _
      · rw [lookupNat_cons, if_neg ha] at h
        exact List.mem_cons_of_mem _ (ih h)

theorem eraseKey_of_lookup_none {α : Type} {k : Nat} {l : List (Nat × α)}
    (h : lookupNat k l = none) : eraseKey k l = l := by
  rw [lookupNat_eq_none_iff] at h
  exact List.filter_eq_self.mpr fun p hp => by simpa using h p hp

/-! Field characterizations of the state operations. -/

theorem removeFromQueue_text_queue (u : Nat) (st : BotState) :
    (removeFromQueue u st).text_queue = st.text_queue.filter (fun x => x ≠ u) := by
  simp [removeFromQueue, drainLoop_eq_filter]

theorem removeFromQueue_voice_queue (u : Nat) (st : BotState) :
    (removeFromQueue u st).voice_queue = st.voice_queue.filter (fun x => x ≠ u) := by
  simp [removeFromQueue, drainLoop_eq_filter]

theorem removeFromQueue_queued (u : Nat) (st : BotState) :
    (removeFromQueue u st).queued_users = st.queued_users.filter (fun x => x ≠ u) := rfl

theorem removeFromQueue_waiting (u : Nat) (st : BotState) :
    (removeFromQueue u st).waiting_rooms = st.waiting_rooms := rfl

theorem removeFromQueue_sessions (u : Nat) (st : BotState) :
    (removeFromQueue u st).active_sessions = st.active_sessions := rfl

theorem waitingCleanupOne_text_queue (uid : Nat) (oDel : XRes) (st : BotState) :
    (waitingCleanupOne uid oDel st).state.text_queue = st.text_queue := by
  cases oDel <;> unfold waitingCleanupOne <;> split <;> rfl

theorem waitingCleanupOne_voice_queue (uid : Nat) (oDel : XRes) (st : BotState) :
    (waitingCleanupOne uid oDel st).state.voice_queue = st.voice_queue := by
  cases oDel <;> unfold waitingCleanupOne <;> split <;> rfl

theorem waitingCleanupOne_sessions (uid : Nat) (oDel : XRes) (st : BotState) :
    (waitingCleanupOne uid oDel st).state.active_sessions = st.active_sessions := by
  cases oDel <;> unfold waitingCleanupOne <;> split <;> rfl

theorem waitingCleanupOne_counter (uid : Nat) (oDel : XRes) (st : BotState) :
    (waitingCleanupOne uid oDel st).state.session_counter = st.session_counter := by
  cases oDel <;> unfold waitingCleanupOne <;> split <;> rfl

theorem waitingCleanupOne_ok (uid : Nat) (oDel : XRes) (st : BotState)
    (h : oDel ≠ .otherErr) :
    (waitingCleanupOne uid oDel st).raised = false ∧
    (waitingCleanupOne uid oDel st).state.queued_users
      = st.queued_users.filter (fun x => x ≠ uid) ∧
    (waitingCleanupOne uid oDel st).state.timeouts = cancelTimeout uid st.timeouts ∧
    uid ∉ (waitingCleanupOne uid oDel st).state.waiting_rooms ∧
    (∀ w ∈ (waitingCleanupOne uid oDel st).state.waiting_rooms, w ∈ st.waiting_rooms) := by
  cases oDel
  case otherErr => exact absurd rfl h
  all_goals
    unfold waitingCleanupOne
    split
    · exact ⟨rfl, rfl, rfl, by simp [List.mem_filter],
        fun w hw => (List.mem_filter.mp hw).1⟩
    · rename_i hmem
      exact ⟨rfl, rfl, rfl, hmem, fun w hw => hw⟩

theorem sessionFailCleanup_text_queue (u1 u2 : Nat) (st : BotState) :
    (sessionFailCleanup u1 u2 st).text_queue = st.text_queue := rfl

theorem sessionFailCleanup_voice_queue (u1 u2 : Nat) (st : BotState) :
    (sessionFailCleanup u1 u2 st).voice_queue = st.voice_queue := rfl

theorem sessionFailCleanup_resets (u1 u2 : Nat) (st : BotState) :
    lookupNat u1 (sessionFailCleanup u1 u2 st).active_sessions = none ∧
    lookupNat u2 (sessionFailCleanup u1 u2 st).active_sessions = none ∧
    u1 ∉ (sessionFailCleanup u1 u2 st).queued_users ∧
    u2 ∉ (sessionFailCleanup u1 u2 st).queued_users := by
  refine ⟨?_, ?_, ?_, ?_⟩
  · by_cases h : u1 = u2
    · subst h
      exact lookupNat_eraseKey_self _ _
    · rw [show (sessionFailCleanup u1 u2 st).active_sessions
            = eraseKey u2 (eraseKey u1 st.active_sessions) from rfl,
          lookupNat_eraseKey_ne h]
      exact lookupNat_eraseKey_self _ _
  · exact lookupNat_eraseKey_self _ _
  · intro hmem
    have := List.mem_filter.mp (List.mem_filter.mp hmem).1
    simp at this
  · intro hmem
    have := List.mem_filter.mp hmem
    simp at this

theorem createTextSession_text_queue (u1 u2 : Nat) (sid : String) (t : Nat)
    (o : StartOutcomes) (st : BotState) :
    (createTextSession u1 u2 sid t o st).state.text_queue = st.text_queue := by
  unfold createTextSession
  (repeat' split) <;> rfl

theorem createTextSession_voice_queue (u1 u2 : Nat) (sid : String) (t : Nat)
    (o : StartOutcomes) (st : BotState) :
    (createTextSession u1 u2 sid t o st).state.voice_queue = st.voice_queue := by
  unfold createTextSession
  (repeat' split) <;> rfl

theorem createTextSession_waiting (u1 u2 : Nat) (sid : String) (t : Nat)
    (o : StartOutcomes) (st : BotState) :
    (createTextSession u1 u2 sid t o st).state.waiting_rooms = st.waiting_rooms := by
  unfold createTextSession
  (repeat' split) <;> rfl

theorem createTextSession_timeouts (u1 u2 : Nat) (sid : String) (t : Nat)
    (o : StartOutcomes) (st : BotState) :
    (createTextSession u1 u2 sid t o st).state.timeouts = st.timeouts := by
  unfold createTextSession
  (repeat' split) <;> rfl

theorem createVoiceSession_text_queue (u1 u2 : Nat) (sid : String) (t : Nat)
    (o : StartOutcomes) (st : BotState) :
    (createVoiceSession u1 u2 sid t o st).state.text_queue = st.text_queue := by
  unfold createVoiceSession
  (repeat' split) <;> rfl

theorem createVoiceSession_voice_queue (u1 u2 : Nat) (sid : String) (t : Nat)
    (o : StartOutcomes) (st : BotState) :
    (createVoiceSession u1 u2 sid t o st).state.voice_queue = st.voice_queue := by
  unfold createVoiceSession
  (repeat' split) <;> rfl

theorem createVoiceSession_waiting (u1 u2 : Nat) (sid : String) (t : Nat)
    (o : StartOutcomes) (st : BotState) :
    (createVoiceSession u1 u2 sid t o st).state.waiting_rooms = st.waiting_rooms := by
  unfold createVoiceSession
  (repeat' split) <;> rfl

theorem createVoiceSession_timeouts (u1 u2 : Nat) (sid : String) (t : Nat)
    (o : StartOutcomes) (st : BotState) :
    (createVoiceSession u1 u2 sid t o st).state.timeouts = st.timeouts := by
  unfold createVoiceSession
  (repeat' split) <;> rfl

theorem createTextSession_queued_sub (u1 u2 : Nat) (sid : String) (t : Nat)
    (o : StartOutcomes) (st : BotState) :
    ∀ u, u ∈ (createTextSession u1 u2 sid t o st).state.queued_users →
      u ∈ st.queued_users := by
  unfold createTextSession
  (repeat' split) <;> intro u hu <;>
    first
      | exact hu
      | · simp only [sessionFailCleanup, List.mem_filter] at hu
          exact hu.1.1

theorem createTextSession_queued_sup (u1 u2 : Nat) (sid : String) (t : Nat)
    (o : StartOutcomes) (st : BotState) :
    ∀ u, u ∈ st.queued_users → u ≠ u1 → u ≠ u2 →
      u ∈ (createTextSession u1 u2 sid t o st).state.queued_users := by
  unfold createTextSession
  (repeat' split) <;> intro u hu h1 h2 <;>
    first
      | exact hu
      | · simp only [sessionFailCleanup, List.mem_filter]
          simp [hu, h1, h2]

theorem createVoiceSession_queued_sub (u1 u2 : Nat) (sid : String) (t : Nat)
    (o : StartOutcomes) (st : BotState) :
    ∀ u, u ∈ (createVoiceSession u1 u2 sid t o st).state.queued_users →
      u ∈ st.queued_users := by
  unfold createVoiceSession
  (repeat' split) <;> intro u hu <;>
    first
      | exact hu
      | · simp only [sessionFailCleanup, List.mem_filter] at hu
          exact hu.1.1

theorem createVoiceSession_queued_sup (u1 u2 : Nat) (sid : String) (t : Nat)
    (o : StartOutcomes) (st : BotState) :
    ∀ u, u ∈ st.queued_users → u ≠ u1 → u ≠ u2 →
      u ∈ (createVoiceSession u1 u2 sid t o st).state.queued_users := by
  unfold createVoiceSession
  (repeat' split) <;> intro u hu h1 h2 <;>
    first
      | exact hu
      | · simp only [sessionFailCleanup, List.mem_filter]
          simp [hu, h1, h2]

theorem createTextSession_ok (u1 u2 : Nat) (sid : String) (t : Nat)
    (o : StartOutcomes) (st : BotState)
    (h3 : o.oThread ≠ .otherErr) (h4 : o.oFetch1 ≠ .otherErr) (h5 : o.oAdd1 ≠ .otherErr)
    (h6 : o.oFetch2 ≠ .otherErr) (h7 : o.oAdd2 ≠ .otherErr) (h8 : o.oSend ≠ .otherErr) :
    (createTextSession u1 u2 sid t o st).raised = false := by
  unfold createTextSession
  (repeat' split) <;> simp_all

theorem createVoiceSession_ok (u1 u2 : Nat) (sid : String) (t : Nat)
    (o : StartOutcomes) (st : BotState)
    (h3 : o.oCreate ≠ .otherErr) (h4 : o.oEdit ≠ .otherErr) (h5 : o.oInvite ≠ .otherErr) :
    (createVoiceSession u1 u2 sid t o st).raised = false := by
  unfold createVoiceSession
  (repeat' split) <;> simp_all

/-- Claim C9 (confirmed): remove_from_queue removes exactly the occurrences
of the id from both FIFO queues and from the membership set (each new queue
is the order-preserving filter of the old one, hence a sublist), and a
second call with the same id changes nothing. -/
theorem removeFromQueue_exact :
    ∀ (st : BotState) (u : Nat),
      (removeFromQueue u st).text_queue = st.text_queue.filter (fun x => x ≠ u) ∧
      (removeFromQueue u st).voice_queue = st.voice_queue.filter (fun x => x ≠ u) ∧
      (removeFromQueue u st).queued_users = st.queued_users.filter (fun x => x ≠ u) ∧
      u ∉ (removeFromQueue u st).text_queue ∧
      u ∉ (removeFromQueue u st).voice_queue ∧
      u ∉ (removeFromQueue u st).queued_users ∧
      (removeFromQueue u st).text_queue.Sublist st.text_queue ∧
      (removeFromQueue u st).voice_queue.Sublist st.voice_queue ∧
      removeFromQueue u (removeFromQueue u st) = removeFromQueue u st := by
  intro st u
  refine ⟨removeFromQueue_text_queue u st, removeFromQueue_voice_queue u st, rfl,
          ?_, ?_, ?_, ?_, ?_, ?_⟩
  · rw [removeFromQueue_text_queue]
    intro h
    simpa using (List.mem_filter.mp h).2
  · rw [removeFromQueue_voice_queue]
    intro h
    simpa using (List.mem_filter.mp h).2
  · intro h
    simpa using (List.mem_filter.mp h).2
  · rw [removeFromQueue_text_queue]
    exact List.filter_sublist _
  · rw [removeFromQueue_voice_queue]
    exact List.filter_sublist _
  · cases st
    simp [removeFromQueue, drainLoop_eq_filter, filter_idem]

/-- Claim C6 (code bug): the event sequence trC6 (register, register,
deliver cancellation of the first task, register) leaves two live pending
timeout tasks for user 1 at once, and letting both expire fires the
callback twice — because the cancelled task's finally block deletes the
registry entry of the newer task, the third registration cancels nothing. -/
theorem timeoutRegistry_double_fire :
    pendingFor 1 (runT trC6 emptyRegistry) = 2 ∧
    firesFor 1 (runT (trC6 ++ [.expire 1, .expire 2]) emptyRegistry) = 2 := by decide

/-- Claim C1 counterexample: during a text pairing pass on two valid queued
users, the first observable suspension point (inside start_session, right
after the pair was popped) still has both popped ids in the membership set
while both physical queues are empty, so the membership set differs from
the union of the queue contents at an observation point. -/
theorem pairingPass_observes_membership_mismatch :
    c1BadState ∈ (textPairerPass (fun _ => allOk) stC1).trace ∧
    c1BadState.queued_users = [1, 2] ∧
    c1BadState.text_queue = [] ∧
    c1BadState.voice_queue = [] ∧
    decide (memEq c1BadState) = false := by decide

/-- Claim C2 counterexample: during create_text_session the state observed
at the fetch_user suspension for the second participant already holds the
first participant's session-table entry but not its counterpart, so a
session entry is observable without its partner entry. -/
theorem textSession_midCreation_asymmetry :
    c2BadState ∈ c2Run.trace ∧
    lookupNat 1 c2BadState.active_sessions = some ⟨2, .text, 0, "#0001"⟩ ∧
    lookupNat 2 c2BadState.active_sessions = none ∧
    decide (sessionSymm c2BadState) = false := by decide

/-- Claim C3 counterexample: end_session guards partner removal behind
Python truthiness of the partner id, so ending the session of participant 1
whose partner id is 0 removes only one entry, and a later end_session for
the leftover entry records the same session's duration a second time. -/
theorem endSession_zero_partner_left_behind :
    decide (sessionSymm stC3) = true ∧
    (lookupNat 1 stC3.active_sessions).map SessionRec.partner = some 0 ∧
    lookupNat 1 (endSession 1 .ok stC3).state.active_sessions = none ∧
    lookupNat 0 (endSession 1 .ok stC3).state.active_sessions = some ⟨1, .text, 0, "#0001"⟩ ∧
    (endSession 0 .ok (endSession 1 .ok stC3).state).state.duration_observations = 2 := by decide

/-- Claim C4 counterexample: a non-HTTP failure at the second fetch_user
during text session creation propagates uncaught and leaves participant 1
with a session-table entry, so the rollback does not cover every
provisioning failure. -/
theorem startSession_unhandled_failure_leaves_entry :
    c4Run.raised = true ∧
    lookupNat 1 c4Run.state.active_sessions = some ⟨2, .text, 0, "#0001"⟩ := by decide

/-- Claim C7 counterexample: enqueue_user returns False for a participant
who is neither queued nor in a session when the waiting-room provisioning
fails, so False does not imply already-queued-or-in-session. -/
theorem enqueue_false_without_being_tracked :
    (enqueueUser 1 .text { oRoom := .httpErr } initialState).ok = false ∧
    (lookupNat 1 initialState.active_sessions).isSome = false ∧
    decide (1 ∈ initialState.queued_users) = false := by decide

theorem startSession_text_queue (u1 u2 : Nat) (mode : Mode) (o : StartOutcomes) (st : BotState) :
    (startSession u1 u2 mode o st).state.text_queue = st.text_queue := by
  unfold startSession
  by_cases h1 : (waitingCleanupOne u1 o.oDel1 st).raised = true <;>
  by_cases h2 : (waitingCleanupOne u2 o.oDel2 (waitingCleanupOne u1 o.oDel1 st).state).raised = true <;>
  cases mode <;>
  simp [h1, h2, createTextSession_text_queue, createVoiceSession_text_queue,
        waitingCleanupOne_text_queue, createSessionIdS]

theorem startSession_voice_queue (u1 u2 : Nat) (mode : Mode) (o : StartOutcomes) (st : BotState) :
    (startSession u1 u2 mode o st).state.voice_queue = st.voice_queue := by
  unfold startSession
  by_cases h1 : (waitingCleanupOne u1 o.oDel1 st).raised = true <;>
  by_cases h2 : (waitingCleanupOne u2 o.oDel2 (waitingCleanupOne u1 o.oDel1 st).state).raised = true <;>
  cases mode <;>
  simp [h1, h2, createTextSession_voice_queue, createVoiceSession_voice_queue,
        waitingCleanupOne_voice_queue, createSessionIdS]

theorem startSession_noOther (u1 u2 : Nat) (mode : Mode) (o : StartOutcomes) (st : BotState)
    (h : noOther o) :
    (startSession u1 u2 mode o st).raised = false ∧
    (∀ u, u ∈ (startSession u1 u2 mode o st).state.queued_users ↔
      (u ∈ st.queued_users ∧ u ≠ u1 ∧ u ≠ u2)) := by
  obtain ⟨hd1, hd2, ht, hf1, ha1, hf2, ha2, hs, hc, he, hi⟩ := h
  have H1 := waitingCleanupOne_ok u1 o.oDel1 st hd1
  have H2 := waitingCleanupOne_ok u2 o.oDel2 (waitingCleanupOne u1 o.oDel1 st).state hd2
  have hq2 : (waitingCleanupOne u2 o.oDel2 (waitingCleanupOne u1 o.oDel1 st).state).state.queued_users
      = (st.queued_users.filter (fun x => x ≠ u1)).filter (fun x => x ≠ u2) := by
    rw [H2.2.1, H1.2.1]
  unfold startSession
  simp only [H1.1, H2.1, Bool.false_eq_true, if_false]
  cases mode
  · constructor
    · exact createTextSession_ok _ _ _ _ _ _ ht hf1 ha1 hf2 ha2 hs
    · intro u
      constructor
      · intro hu
        have := createTextSession_queued_sub _ _ _ _ o _ u hu
        rw [show ((createSessionIdS (waitingCleanupOne u2 o.oDel2 (waitingCleanupOne u1 o.oDel1 st).state).state).2).queued_users
              = (waitingCleanupOne u2 o.oDel2 (waitingCleanupOne u1 o.oDel1 st).state).state.queued_users from rfl,
            hq2] at this
        have h2 := List.mem_filter.mp this
        have h1 := List.mem_filter.mp h2.1
        refine ⟨h1.1, by simpa using h1.2, by simpa using h2.2⟩
      · rintro ⟨hu, hne1, hne2⟩
        apply createTextSession_queued_sup _ _ _ _ o _ u _ hne1 hne2
        rw [show ((createSessionIdS (waitingCleanupOne u2 o.oDel2 (waitingCleanupOne u1 o.oDel1 st).state).state).2).queued_users
              = (waitingCleanupOne u2 o.oDel2 (waitingCleanupOne u1 o.oDel1 st).state).state.queued_users from rfl,
            hq2]
        exact List.mem_filter.mpr ⟨List.mem_filter.mpr ⟨hu, by simpa using hne1⟩, by simpa using hne2⟩
  · constructor
    · exact createVoiceSession_ok _ _ _ _ _ _ hc he hi
    · intro u
      constructor
      · intro hu
        have := createVoiceSession_queued_sub _ _ _ _ o _ u hu
        rw [show ((createSessionIdS (waitingCleanupOne u2 o.oDel2 (waitingCleanupOne u1 o.oDel1 st).state).state).2).queued_users
              = (waitingCleanupOne u2 o.oDel2 (waitingCleanupOne u1 o.oDel1 st).state).state.queued_users from rfl,
            hq2] at this
        have h2 := List.mem_filter.mp this
        have h1 := List.mem_filter.mp h2.1
        refine ⟨h1.1, by simpa using h1.2, by simpa using h2.2⟩
      · rintro ⟨hu, hne1, hne2⟩
        apply createVoiceSession_queued_sup _ _ _ _ o _ u _ hne1 hne2
        rw [show ((createSessionIdS (waitingCleanupOne u2 o.oDel2 (waitingCleanupOne u1 o.oDel1 st).state).state).2).queued_users
              = (waitingCleanupOne u2 o.oDel2 (waitingCleanupOne u1 o.oDel1 st).state).state.queued_users from rfl,
            hq2]
        exact List.mem_filter.mpr ⟨List.mem_filter.mpr ⟨hu, by simpa using hne1⟩, by simpa using hne2⟩

theorem textPairerLoop_pairs_sub (o : Nat → StartOutcomes) :
    ∀ (fuel i : Nat) (st : BotState) (pr : Nat × Nat),
      pr ∈ (textPairerLoop o fuel i st).pairs →
      pr.1 ∈ st.text_queue ∧ pr.2 ∈ st.text_queue := by
  intro fuel
  induction fuel with
  | zero =>
      intro i st pr h
      simp [textPairerLoop] at h
  | succ n ih =>
      intro i st pr h
      rw [textPairerLoop] at h
      rcases hq : st.text_queue with _ | ⟨u1, tl⟩
      · rw [hq] at h; simp at h
      rcases tl with _ | ⟨u2, rest⟩
      · rw [hq] at h; simp at h
      rw [hq] at h
      simp only at h
      by_cases hv : u1 ∈ ({ st with text_queue := rest } : BotState).waiting_rooms ∧
          u2 ∈ ({ st with text_queue := rest } : BotState).waiting_rooms
      · rw [if_pos hv] at h
        by_cases hr : (startSession u1 u2 .text (o i) { st with text_queue := rest }).raised = true
        · rw [if_pos hr] at h
          simp only [List.mem_singleton] at h
          subst h
          constructor <;> simp
        · rw [if_neg hr] at h
          simp only [List.mem_cons] at h
          rcases h with h | h
          · subst h
            constructor <;> simp
          · have := ih (i + 1) _ pr h
            rw [startSession_text_queue] at this
            have hsub : ({ st with text_queue := rest } : BotState).text_queue = rest := rfl
            rw [hsub] at this
            exact ⟨List.mem_cons_of_mem _ (List.mem_cons_of_mem _ this.1),
                   List.mem_cons_of_mem _ (List.mem_cons_of_mem _ this.2)⟩
      · rw [if_neg hv] at h
        have := ih i _ pr h
        have hmem : ∀ x : Nat,
            x ∈ ((if u2 ∈ ({ st with text_queue := rest } : BotState).waiting_rooms
                  then { (if u1 ∈ ({ st with text_queue := rest } : BotState).waiting_rooms
                         then { ({ st with text_queue := rest } : BotState) with
                                  text_queue := ({ st with text_queue := rest } : BotState).text_queue ++ [u1] }
                         else removeFromQueue u1 { st with text_queue := rest }) with
                         text_queue := (if u1 ∈ ({ st with text_queue := rest } : BotState).waiting_rooms
                                        then { ({ st with text_queue := rest } : BotState) with
                                                 text_queue := ({ st with text_queue := rest } : BotState).text_queue ++ [u1] }
                                        else removeFromQueue u1 { st with text_queue := rest }).text_queue ++ [u2] }
                  else removeFromQueue u2
                    (if u1 ∈ ({ st with text_queue := rest } : BotState).waiting_rooms
                     then { ({ st with text_queue := rest } : BotState) with
                              text_queue := ({ st with text_queue := rest } : BotState).text_queue ++ [u1] }
                     else removeFromQueue u1 { st with text_queue := rest })) : BotState).text_queue →
            x = u1 ∨ x = u2 ∨ x ∈ rest := by
          intro x hx
          by_cases h1 : u1 ∈ ({ st with text_queue := rest } : BotState).waiting_rooms <;>
          by_cases h2 : u2 ∈ ({ st with text_queue := rest } : BotState).waiting_rooms <;>
          simp only [h1, h2, if_pos, if_neg, if_true, if_false, removeFromQueue_text_queue,
            List.mem_append, List.mem_filter, List.mem_singleton] at hx <;>
          tauto
        rcases hmem pr.1 this.1 with h1 | h1 | h1 <;>
        rcases hmem pr.2 this.2 with h2 | h2 | h2 <;>
        subst_eqs <;>
        simp_all [List.mem_cons]

theorem voicePairerLoop_pairs_sub (o : Nat → StartOutcomes) :
    ∀ (fuel i : Nat) (st : BotState) (pr : Nat × Nat),
      pr ∈ (voicePairerLoop o fuel i st).pairs →
      pr.1 ∈ st.voice_queue ∧ pr.2 ∈ st.voice_queue := by
  intro fuel
  induction fuel with
  | zero =>
      intro i st pr h
      simp [voicePairerLoop] at h
  | succ n ih =>
      intro i st pr h
      rw [voicePairerLoop] at h
      rcases hq : st.voice_queue with _ | ⟨u1, tl⟩
      · rw [hq] at h; simp at h
      rcases tl with _ | ⟨u2, rest⟩
      · rw [hq] at h; simp at h
      rw [hq] at h
      simp only at h
      by_cases hv : u1 ∈ ({ st with voice_queue := rest } : BotState).waiting_rooms ∧
          u2 ∈ ({ st with voice_queue := rest } : BotState).waiting_rooms
      · rw [if_pos hv] at h
        by_cases hr : (startSession u1 u2 .voice (o i) { st with voice_queue := rest }).raised = true
        · rw [if_pos hr] at h
          simp only [List.mem_singleton] at h
          subst h
          constructor <;> simp
        · rw [if_neg hr] at h
          simp only [List.mem_cons] at h
          rcases h with h | h
          · subst h
            constructor <;> simp
          · have := ih (i + 1) _ pr h
            rw [startSession_voice_queue] at this
            have hsub : ({ st with voice_queue := rest } : BotState).voice_queue = rest := rfl
            rw [hsub] at this
            exact ⟨List.mem_cons_of_mem _ (List.mem_cons_of_mem _ this.1),
                   List.mem_cons_of_mem _ (List.mem_cons_of_mem _ this.2)⟩
      · rw [if_neg hv] at h
        have := ih i _ pr h
        have hmem : ∀ x : Nat,
            x ∈ ((if u2 ∈ ({ st with voice_queue := rest } : BotState).waiting_rooms
                  then { (if u1 ∈ ({ st with voice_queue := rest } : BotState).waiting_rooms
                         then { ({ st with voice_queue := rest } : BotState) with
                                  voice_queue := ({ st with voice_queue := rest } : BotState).voice_queue ++ [u1] }
                         else removeFromQueue u1 { st with voice_queue := rest }) with
                         voice_queue := (if u1 ∈ ({ st with voice_queue := rest } : BotState).waiting_rooms
                                        then { ({ st with voice_queue := rest } : BotState) with
                                                 voice_queue := ({ st with voice_queue := rest } : BotState).voice_queue ++ [u1] }
                                        else removeFromQueue u1 { st with voice_queue := rest }).voice_queue ++ [u2] }
                  else removeFromQueue u2
                    (if u1 ∈ ({ st with voice_queue := rest } : BotState).waiting_rooms
                     then { ({ st with voice_queue := rest } : BotState) with
                              voice_queue := ({ st with voice_queue := rest } : BotState).voice_queue ++ [u1] }
                     else removeFromQueue u1 { st with voice_queue := rest })) : BotState).voice_queue →
            x = u1 ∨ x = u2 ∨ x ∈ rest := by
          intro x hx
          by_cases h1 : u1 ∈ ({ st with voice_queue := rest } : BotState).waiting_rooms <;>
          by_cases h2 : u2 ∈ ({ st with voice_queue := rest } : BotState).waiting_rooms <;>
          simp only [h1, h2, if_pos, if_neg, if_true, if_false, removeFromQueue_voice_queue,
            List.mem_append, List.mem_filter, List.mem_singleton] at hx <;>
          tauto
        rcases hmem pr.1 this.1 with h1 | h1 | h1 <;>
        rcases hmem pr.2 this.2 with h2 | h2 | h2 <;>
        subst_eqs <;>
        simp_all [List.mem_cons]

/-- Running the drain loop with fuel at least the current text queue length
either propagates an uncaught exception (aborting the pass, as in the
source) or ends with fewer than two queued entries, i.e. exactly where the
source's while loop stops.  Each iteration shrinks the queue by at least
one, so the fuel used by textPairerPass never runs out early. -/
theorem textPairerLoop_completes (o : Nat → StartOutcomes) :
    ∀ (fuel i : Nat) (st : BotState), st.text_queue.length ≤ fuel →
      (textPairerLoop o fuel i st).raised = true ∨
      (textPairerLoop o fuel i st).state.text_queue.length ≤ 1 := by
  intro fuel
  induction fuel with
  | zero =>
      intro i st h
      right
      simp only [textPairerLoop]
      omega
  | succ n ih =>
      intro i st h
      rw [textPairerLoop]
      rcases hq : st.text_queue with _ | ⟨u1, tl⟩
      · right; simp [hq]
      rcases tl with _ | ⟨u2, rest⟩
      · right; simp [hq]
      rw [hq] at h
      simp only [List.length_cons] at h
      simp only []
      by_cases hv : u1 ∈ ({ st with text_queue := rest } : BotState).waiting_rooms ∧
          u2 ∈ ({ st with text_queue := rest } : BotState).waiting_rooms
      · rw [if_pos hv]
        by_cases hr : (startSession u1 u2 .text (o i) { st with text_queue := rest }).raised = true
        · rw [if_pos hr]
          left; rfl
        · rw [if_neg hr]
          apply ih
          rw [startSession_text_queue]
          have hsub : ({ st with text_queue := rest } : BotState).text_queue = rest := rfl
          rw [hsub]
          omega
      · rw [if_neg hv]
        apply ih
        by_cases h1 : u1 ∈ ({ st with text_queue := rest } : BotState).waiting_rooms <;>
        by_cases h2 : u2 ∈ ({ st with text_queue := rest } : BotState).waiting_rooms
        · exact absurd ⟨h1, h2⟩ hv
        · simp only [h1, h2, if_true, if_false, removeFromQueue_text_queue]
          refine le_trans (List.length_filter_le _ _) ?_
          simp only [List.length_append, List.length_cons, List.length_nil]
          omega
        · simp only [h1, h2, if_true, if_false, removeFromQueue_text_queue, List.length_append]
          have := List.length_filter_le (fun x => decide (x ≠ u1)) rest
          simp only [List.length_cons, List.length_nil] at *
          omega
        · simp only [h1, h2, if_true, if_false, removeFromQueue_text_queue]
          refine le_trans (List.length_filter_le _ _) ?_
          refine le_trans (List.length_filter_le _ _) ?_
          omega

/-- Running the drain loop with fuel at least the current voice queue length
either propagates an uncaught exception (aborting the pass, as in the
source) or ends with fewer than two queued entries, i.e. exactly where the
source's while loop stops.  Each iteration shrinks the queue by at least
one, so the fuel used by voicePairerPass never runs out early. -/
theorem voicePairerLoop_completes (o : Nat → StartOutcomes) :
    ∀ (fuel i : Nat) (st : BotState), st.voice_queue.length ≤ fuel →
      (voicePairerLoop o fuel i st).raised = true ∨
      (voicePairerLoop o fuel i st).state.voice_queue.length ≤ 1 := by
  intro fuel
  induction fuel with
  | zero =>
      intro i st h
      right
      simp only [voicePairerLoop]
      omega
  | succ n ih =>
      intro i st h
      rw [voicePairerLoop]
      rcases hq : st.voice_queue with _ | ⟨u1, tl⟩
      · right; simp [hq]
      rcases tl with _ | ⟨u2, rest⟩
      · right; simp [hq]
      rw [hq] at h
      simp only [List.length_cons] at h
      simp only []
      by_cases hv : u1 ∈ ({ st with voice_queue := rest } : BotState).waiting_rooms ∧
          u2 ∈ ({ st with voice_queue := rest } : BotState).waiting_rooms
      · rw [if_pos hv]
        by_cases hr : (startSession u1 u2 .voice (o i) { st with voice_queue := rest }).raised = true
        · rw [if_pos hr]
          left; rfl
        · rw [if_neg hr]
          apply ih
          rw [startSession_voice_queue]
          have hsub : ({ st with voice_queue := rest } : BotState).voice_queue = rest := rfl
          rw [hsub]
          omega
      · rw [if_neg hv]
        apply ih
        by_cases h1 : u1 ∈ ({ st with voice_queue := rest } : BotState).waiting_rooms <;>
        by_cases h2 : u2 ∈ ({ st with voice_queue := rest } : BotState).waiting_rooms
        · exact absurd ⟨h1, h2⟩ hv
        · simp only [h1, h2, if_true, if_false, removeFromQueue_voice_queue]
          refine le_trans (List.length_filter_le _ _) ?_
          simp only [List.length_append, List.length_cons, List.length_nil]
          omega
        · simp only [h1, h2, if_true, if_false, removeFromQueue_voice_queue, List.length_append]
          have := List.length_filter_le (fun x => decide (x ≠ u1)) rest
          simp only [List.length_cons, List.length_nil] at *
          omega
        · simp only [h1, h2, if_true, if_false, removeFromQueue_voice_queue]
          refine le_trans (List.length_filter_le _ _) ?_
          refine le_trans (List.length_filter_le _ _) ?_
          omega

/-- Claim C5 (confirmed): pairing is FIFO within a mode — on the queued
sequence [1,2,3,4] of valid participants one pairing pass invokes session
creation exactly for (1,2) and (3,4), in that order — and never crosses
modes: every pair the text pass ever produces has both members drawn from
the text queue, and every pair of the voice pass from the voice queue. -/
theorem pairing_fifo_within_mode_no_cross :
    (textPairerPass (fun _ => allOk) st4).pairs = [(1, 2), (3, 4)] ∧
    (∀ (o : Nat → StartOutcomes) (fuel i : Nat) (st : BotState) (pr : Nat × Nat),
        pr ∈ (textPairerLoop o fuel i st).pairs →
        pr.1 ∈ st.text_queue ∧ pr.2 ∈ st.text_queue) ∧
    (∀ (o : Nat → StartOutcomes) (fuel i : Nat) (st : BotState) (pr : Nat × Nat),
        pr ∈ (voicePairerLoop o fuel i st).pairs →
        pr.1 ∈ st.voice_queue ∧ pr.2 ∈ st.voice_queue) :=
  ⟨by decide, textPairerLoop_pairs_sub, voicePairerLoop_pairs_sub⟩

theorem pairing_fifo_within_mode_no_cross_witness :
    (1 : Nat) ∈ st4.text_queue ∧ (2 : Nat) ∈ st4.text_queue :=
  pairing_fifo_within_mode_no_cross.2.1 (fun _ => allOk) 4 0 st4 (1, 2) (by decide)

/-- Claim C8 (confirmed): when a popped pair fails validity with exactly
one of the two still holding a waiting room, the pass continues on the
state obtained by re-putting the valid participant at the tail of the same
queue and removing the invalid one through remove_from_queue, the primitive
manual leave uses — in both orientations: valid popped first (re-put at the
tail, then the invalid second one removed) and invalid popped first
(removed, then the valid second one re-put at the tail).  Concretely, on
queue [1,2,3,4,5] with 2 invalid, user 1 is paired after 3, 4 and 5 (pairs
(3,4) then (5,1)) rather than from its original position and 2 leaves all
queue tracking; with 1 invalid instead, user 2 is paired after 3, 4 and 5
(pairs (3,4) then (5,2)) and 1 leaves all queue tracking. -/
theorem invalid_pair_requeues_valid_at_tail :
    (∀ (o : Nat → StartOutcomes) (fuel i u1 u2 : Nat) (rest : List Nat) (st : BotState),
        st.text_queue = u1 :: u2 :: rest →
        u1 ∈ st.waiting_rooms → u2 ∉ st.waiting_rooms →
        textPairerLoop o (fuel + 1) i st =
          textPairerLoop o fuel i
            (removeFromQueue u2 { st with text_queue := rest ++ [u1] })) ∧
    (∀ (o : Nat → StartOutcomes) (fuel i u1 u2 : Nat) (rest : List Nat) (st : BotState),
        st.voice_queue = u1 :: u2 :: rest →
        u1 ∈ st.waiting_rooms → u2 ∉ st.waiting_rooms →
        voicePairerLoop o (fuel + 1) i st =
          voicePairerLoop o fuel i
            (removeFromQueue u2 { st with voice_queue := rest ++ [u1] })) ∧
    (∀ (o : Nat → StartOutcomes) (fuel i u1 u2 : Nat) (rest : List Nat) (st : BotState),
        st.text_queue = u1 :: u2 :: rest →
        u1 ∉ st.waiting_rooms → u2 ∈ st.waiting_rooms →
        textPairerLoop o (fuel + 1) i st =
          textPairerLoop o fuel i
            { removeFromQueue u1 { st with text_queue := rest } with
                text_queue :=
                  (removeFromQueue u1 { st with text_queue := rest }).text_queue ++ [u2] }) ∧
    (∀ (o : Nat → StartOutcomes) (fuel i u1 u2 : Nat) (rest : List Nat) (st : BotState),
        st.voice_queue = u1 :: u2 :: rest →
        u1 ∉ st.waiting_rooms → u2 ∈ st.waiting_rooms →
        voicePairerLoop o (fuel + 1) i st =
          voicePairerLoop o fuel i
            { removeFromQueue u1 { st with voice_queue := rest } with
                voice_queue :=
                  (removeFromQueue u1 { st with voice_queue := rest }).voice_queue ++ [u2] }) ∧
    (textPairerPass (fun _ => allOk) st5).pairs = [(3, 4), (5, 1)] ∧
    (textPairerPass (fun _ => allOk) st5).state.text_queue = [] ∧
    decide (2 ∈ (textPairerPass (fun _ => allOk) st5).state.queued_users) = false ∧
    (textPairerPass (fun _ => allOk) st6).pairs = [(3, 4), (5, 2)] ∧
    (textPairerPass (fun _ => allOk) st6).state.text_queue = [] ∧
    decide (1 ∈ (textPairerPass (fun _ => allOk) st6).state.queued_users) = false := by
  refine ⟨?_, ?_, ?_, ?_, by decide, by decide, by decide, by decide, by decide, by decide⟩
  · intro o fuel i u1 u2 rest st hq h1 h2
    rw [textPairerLoop, hq]
    simp only [h1, h2]
    simp
  · intro o fuel i u1 u2 rest st hq h1 h2
    rw [voicePairerLoop, hq]
    simp only [h1, h2]
    simp
  · intro o fuel i u1 u2 rest st hq h1 h2
    rw [textPairerLoop, hq]
    simp only [h1, h2]
    simp
  · intro o fuel i u1 u2 rest st hq h1 h2
    rw [voicePairerLoop, hq]
    simp only [h1, h2]
    simp

theorem invalid_pair_requeues_valid_at_tail_witness :
    (textPairerLoop (fun _ => allOk) 5 0 st5 =
      textPairerLoop (fun _ => allOk) 4 0
        (removeFromQueue 2 { st5 with text_queue := [3, 4, 5] ++ [1] })) ∧
    (textPairerLoop (fun _ => allOk) 5 0 st6 =
      textPairerLoop (fun _ => allOk) 4 0
        { removeFromQueue 1 { st6 with text_queue := [3, 4, 5] } with
            text_queue :=
              (removeFromQueue 1 { st6 with text_queue := [3, 4, 5] }).text_queue ++ [2] }) :=
  ⟨invalid_pair_requeues_valid_at_tail.1 (fun _ => allOk) 4 0 1 2 [3, 4, 5] st5
      (by decide) (by decide) (by decide),
   invalid_pair_requeues_valid_at_tail.2.2.1 (fun _ => allOk) 4 0 1 2 [3, 4, 5] st6
      (by decide) (by decide) (by decide)⟩

theorem nodup_parts {l1 l2 : List Nat} (h : (l1 ++ l2).Nodup) :
    l1.Nodup ∧ l2.Nodup ∧ ∀ a ∈ l1, a ∉ l2 := by
  rw [List.nodup_append] at h
  exact ⟨h.1, h.2.1, fun a ha => h.2.2 ha⟩

theorem nodup_join {l1 l2 : List Nat} (h1 : l1.Nodup) (h2 : l2.Nodup)
    (hd : ∀ a ∈ l1, a ∉ l2) : (l1 ++ l2).Nodup := by
  rw [List.nodup_append]
  exact ⟨h1, h2, fun {a} ha => hd a ha⟩

theorem nodup_snoc {l : List Nat} {u : Nat} (h1 : l.Nodup) (h2 : u ∉ l) :
    (l ++ [u]).Nodup := by
  apply nodup_join h1 (List.nodup_singleton u)
  intro a ha hb
  obtain rfl : a = u := by simpa using hb
  exact h2 ha

theorem textPairerLoop_memEq (o : Nat → StartOutcomes) (ho : ∀ j, noOther (o j)) :
    ∀ (fuel i : Nat) (st : BotState), memEq st →
      (st.text_queue ++ st.voice_queue).Nodup →
      memEq (textPairerLoop o fuel i st).state ∧
      ((textPairerLoop o fuel i st).state.text_queue ++
        (textPairerLoop o fuel i st).state.voice_queue).Nodup := by
  intro fuel
  induction fuel with
  | zero =>
      intro i st hm hn
      simp only [textPairerLoop]
      exact ⟨hm, hn⟩
  | succ n ih =>
      intro i st hm hn
      obtain ⟨hm1, hm2, hm3⟩ := hm
      rw [textPairerLoop]
      rcases hq : st.text_queue with _ | ⟨u1, tl⟩
      · exact ⟨⟨hm1, hm2, hm3⟩, hn⟩
      rcases tl with _ | ⟨u2, rest⟩
      · exact ⟨⟨hm1, hm2, hm3⟩, hn⟩
      rw [hq] at hm1 hm2 hn
      have hnp := nodup_parts hn
      have hcons := hnp.1
      have hvN := hnp.2.1
      have hdisj := hnp.2.2
      have hc1 := List.nodup_cons.mp hcons
      have hc2 := List.nodup_cons.mp hc1.2
      have hu2 : u2 ∉ rest := hc2.1
      have hrestN : rest.Nodup := hc2.2
      have hu1rest : u1 ∉ rest := fun h => hc1.1 (List.mem_cons_of_mem _ h)
      have hu1u2 : u1 ≠ u2 := fun h => hc1.1 (h ▸ List.mem_cons_self _ _)
      have hu1v : u1 ∉ st.voice_queue := hdisj u1 (by simp)
      have hu2v : u2 ∉ st.voice_queue := hdisj u2 (by simp)
      have hrv : ∀ a ∈ rest, a ∉ st.voice_queue := fun a ha => hdisj a (by simp [ha])
      dsimp only
      by_cases hv : u1 ∈ st.waiting_rooms ∧ u2 ∈ st.waiting_rooms
      · rw [if_pos hv]
        have hS := startSession_noOther u1 u2 .text (o i) { st with text_queue := rest } (ho i)
        rw [if_neg (by simp [hS.1])]
        have htq : (startSession u1 u2 .text (o i)
            { st with text_queue := rest }).state.text_queue = rest :=
          startSession_text_queue u1 u2 .text (o i) { st with text_queue := rest }
        have hvq : (startSession u1 u2 .text (o i)
            { st with text_queue := rest }).state.voice_queue = st.voice_queue :=
          startSession_voice_queue u1 u2 .text (o i) { st with text_queue := rest }
        have hqu := hS.2
        have hmem : memEq (startSession u1 u2 .text (o i)
            { st with text_queue := rest }).state := by
          refine ⟨?_, ?_, ?_⟩
          · intro u hu
            rw [htq, hvq]
            obtain ⟨huq, hne1, hne2⟩ := (hqu u).mp hu
            rcases hm1 u huq with htx | hvx
            · left
              rcases List.mem_cons.mp htx with h | htx2
              · exact absurd h hne1
              rcases List.mem_cons.mp htx2 with h | htx3
              · exact absurd h hne2
              · exact htx3
            · right; exact hvx
          · intro u hu
            rw [htq] at hu
            apply (hqu u).mpr
            exact ⟨hm2 u (by simp [hu]), fun h => hu1rest (h ▸ hu), fun h => hu2 (h ▸ hu)⟩
          · intro u hu
            rw [hvq] at hu
            apply (hqu u).mpr
            exact ⟨hm3 u hu, fun h => hu1v (h ▸ hu), fun h => hu2v (h ▸ hu)⟩
        have hnod : ((startSession u1 u2 .text (o i) { st with text_queue := rest }).state.text_queue
            ++ (startSession u1 u2 .text (o i)
                  { st with text_queue := rest }).state.voice_queue).Nodup := by
          rw [htq, hvq]
          exact nodup_join hrestN hvN hrv
        exact ih (i + 1) _ hmem hnod
      · rw [if_neg hv]
        by_cases h1 : u1 ∈ st.waiting_rooms <;>
        by_cases h2 : u2 ∈ st.waiting_rooms
        · exact absurd ⟨h1, h2⟩ hv
        · -- valid u1, invalid u2: re-put u1 at the tail, remove u2
          rw [if_pos h1, if_neg h2]
          have hmemA : memEq (removeFromQueue u2
              { ({ st with text_queue := rest } : BotState) with
                  text_queue := ({ st with text_queue := rest } : BotState).text_queue ++ [u1] }) := by
            refine ⟨?_, ?_, ?_⟩ <;> intro u hu
            · rw [removeFromQueue_text_queue, removeFromQueue_voice_queue]
              rw [removeFromQueue_queued] at hu
              have hu2m := List.mem_filter.mp hu
              have hne2 : u ≠ u2 := by simpa using hu2m.2
              rcases hm1 u hu2m.1 with htx | hvx
              · left
                apply List.mem_filter.mpr
                refine ⟨?_, by simpa using hne2⟩
                rcases List.mem_cons.mp htx with h | htx2
                · exact List.mem_append.mpr (Or.inr (by simp [h]))
                rcases List.mem_cons.mp htx2 with h | htx3
                · exact absurd h hne2
                · exact List.mem_append.mpr (Or.inl htx3)
              · right
                exact List.mem_filter.mpr ⟨hvx, by simpa using hne2⟩
            · rw [removeFromQueue_queued]
              rw [removeFromQueue_text_queue] at hu
              have hu2m := List.mem_filter.mp hu
              have hne2 : u ≠ u2 := by simpa using hu2m.2
              apply List.mem_filter.mpr
              refine ⟨?_, by simpa using hne2⟩
              rcases List.mem_append.mp hu2m.1 with h | h
              · exact hm2 u (by simp [h])
              · obtain rfl : u = u1 := by simpa using h
                exact hm2 u (by simp)
            · rw [removeFromQueue_queued]
              rw [removeFromQueue_voice_queue] at hu
              have hu2m := List.mem_filter.mp hu
              exact List.mem_filter.mpr ⟨hm3 u hu2m.1, hu2m.2⟩
          have hnodA : ((removeFromQueue u2
              { ({ st with text_queue := rest } : BotState) with
                  text_queue := ({ st with text_queue := rest } : BotState).text_queue ++ [u1] }).text_queue
              ++ (removeFromQueue u2
              { ({ st with text_queue := rest } : BotState) with
                  text_queue := ({ st with text_queue := rest } : BotState).text_queue ++ [u1] }).voice_queue).Nodup := by
            rw [removeFromQueue_text_queue, removeFromQueue_voice_queue]
            apply nodup_join
            · exact (nodup_snoc hrestN hu1rest).filter _
            · exact hvN.filter _
            · intro a ha hb
              have ha2 := List.mem_filter.mp ha
              have hb2 := List.mem_filter.mp hb
              rcases List.mem_append.mp ha2.1 with h | h
              · exact hrv a h hb2.1
              · obtain rfl : a = u1 := by simpa using h
                exact hu1v hb2.1
          exact ih i _ hmemA hnodA
        · -- invalid u1, valid u2: remove u1, re-put u2 at the tail
          rw [if_neg h1, if_pos h2]
          have hmemB : memEq
              { removeFromQueue u1 ({ st with text_queue := rest } : BotState) with
                  text_queue := (removeFromQueue u1
                    ({ st with text_queue := rest } : BotState)).text_queue ++ [u2] } := by
            refine ⟨?_, ?_, ?_⟩ <;> intro u hu
            · have hu2m := List.mem_filter.mp hu
              have hne1 : u ≠ u1 := by simpa using hu2m.2
              rcases hm1 u hu2m.1 with htx | hvx
              · left
                show u ∈ (removeFromQueue u1 _).text_queue ++ [u2]
                rw [removeFromQueue_text_queue]
                rcases List.mem_cons.mp htx with h | htx2
                · exact absurd h hne1
                rcases List.mem_cons.mp htx2 with h | htx3
                · exact List.mem_append.mpr (Or.inr (by simp [h]))
                · exact List.mem_append.mpr
                    (Or.inl (List.mem_filter.mpr ⟨htx3, by simpa using hne1⟩))
              · right
                show u ∈ (removeFromQueue u1 _).voice_queue
                rw [removeFromQueue_voice_queue]
                exact List.mem_filter.mpr ⟨hvx, by simpa using hne1⟩
            · rw [show ({ removeFromQueue u1 ({ st with text_queue := rest } : BotState) with
                  text_queue := (removeFromQueue u1
                    ({ st with text_queue := rest } : BotState)).text_queue ++ [u2] } : BotState).text_queue
                  = (removeFromQueue u1
                    ({ st with text_queue := rest } : BotState)).text_queue ++ [u2] from rfl,
                removeFromQueue_text_queue] at hu
              show u ∈ (removeFromQueue u1 _).queued_users
              rw [removeFromQueue_queued]
              rcases List.mem_append.mp hu with h | h
              · have hu2m := List.mem_filter.mp h
                have hne1 : u ≠ u1 := by simpa using hu2m.2
                exact List.mem_filter.mpr ⟨hm2 u (by simp [hu2m.1]), by simpa using hne1⟩
              · obtain rfl : u = u2 := by simpa using h
                exact List.mem_filter.mpr ⟨hm2 u (by simp), by simpa using hu1u2.symm⟩
            · show u ∈ (removeFromQueue u1 _).queued_users
              rw [removeFromQueue_queued]
              have hu3 : u ∈ (removeFromQueue u1
                  ({ st with text_queue := rest } : BotState)).voice_queue := hu
              rw [removeFromQueue_voice_queue] at hu3
              have hu2m := List.mem_filter.mp hu3
              exact List.mem_filter.mpr ⟨hm3 u hu2m.1, hu2m.2⟩
          have hnodB : (({ removeFromQueue u1 ({ st with text_queue := rest } : BotState) with
                  text_queue := (removeFromQueue u1
                    ({ st with text_queue := rest } : BotState)).text_queue ++ [u2] } : BotState).text_queue
              ++ ({ removeFromQueue u1 ({ st with text_queue := rest } : BotState) with
                  text_queue := (removeFromQueue u1
                    ({ st with text_queue := rest } : BotState)).text_queue ++ [u2] } : BotState).voice_queue).Nodup := by
            rw [show ({ removeFromQueue u1 ({ st with text_queue := rest } : BotState) with
                  text_queue := (removeFromQueue u1
                    ({ st with text_queue := rest } : BotState)).text_queue ++ [u2] } : BotState).text_queue
                  = (removeFromQueue u1
                    ({ st with text_queue := rest } : BotState)).text_queue ++ [u2] from rfl,
                show ({ removeFromQueue u1 ({ st with text_queue := rest } : BotState) with
                  text_queue := (removeFromQueue u1
                    ({ st with text_queue := rest } : BotState)).text_queue ++ [u2] } : BotState).voice_queue
                  = (removeFromQueue u1
                    ({ st with text_queue := rest } : BotState)).voice_queue from rfl,
                removeFromQueue_text_queue, removeFromQueue_voice_queue]
            apply nodup_join
            · apply nodup_snoc (hrestN.filter _)
              intro h
              exact hu2 (List.mem_filter.mp h).1
            · exact hvN.filter _
            · intro a ha hb
              have hb2 := List.mem_filter.mp hb
              rcases List.mem_append.mp ha with h | h
              · exact hrv a (List.mem_filter.mp h).1 hb2.1
              · obtain rfl : a = u2 := by simpa using h
                exact hu2v hb2.1
          exact ih i _ hmemB hnodB
        · -- both invalid: remove both
          rw [if_neg h1, if_neg h2]
          have hmemC : memEq (removeFromQueue u2
              (removeFromQueue u1 ({ st with text_queue := rest } : BotState))) := by
            refine ⟨?_, ?_, ?_⟩ <;> intro u hu
            · rw [removeFromQueue_text_queue, removeFromQueue_voice_queue,
                removeFromQueue_text_queue, removeFromQueue_voice_queue]
              rw [removeFromQueue_queued, removeFromQueue_queued] at hu
              have ha := List.mem_filter.mp hu
              have hb := List.mem_filter.mp ha.1
              have hne1 : u ≠ u1 := by simpa using hb.2
              have hne2 : u ≠ u2 := by simpa using ha.2
              rcases hm1 u hb.1 with htx | hvx
              · left
                rcases List.mem_cons.mp htx with h | htx2
                · exact absurd h hne1
                rcases List.mem_cons.mp htx2 with h | htx3
                · exact absurd h hne2
                · exact List.mem_filter.mpr
                    ⟨List.mem_filter.mpr ⟨htx3, hb.2⟩, ha.2⟩
              · right
                exact List.mem_filter.mpr ⟨List.mem_filter.mpr ⟨hvx, hb.2⟩, ha.2⟩
            · rw [removeFromQueue_queued, removeFromQueue_queued]
              rw [removeFromQueue_text_queue, removeFromQueue_text_queue] at hu
              have ha := List.mem_filter.mp hu
              have hb := List.mem_filter.mp ha.1
              exact List.mem_filter.mpr
                ⟨List.mem_filter.mpr ⟨hm2 u (by simp [hb.1]), hb.2⟩, ha.2⟩
            · rw [removeFromQueue_queued, removeFromQueue_queued]
              rw [removeFromQueue_voice_queue, removeFromQueue_voice_queue] at hu
              have ha := List.mem_filter.mp hu
              have hb := List.mem_filter.mp ha.1
              exact List.mem_filter.mpr
                ⟨List.mem_filter.mpr ⟨hm3 u hb.1, hb.2⟩, ha.2⟩
          have hnodC : ((removeFromQueue u2
              (removeFromQueue u1 ({ st with text_queue := rest } : BotState))).text_queue
              ++ (removeFromQueue u2
              (removeFromQueue u1 ({ st with text_queue := rest } : BotState))).voice_queue).Nodup := by
            rw [removeFromQueue_text_queue, removeFromQueue_voice_queue,
              removeFromQueue_text_queue, removeFromQueue_voice_queue]
            apply nodup_join
            · exact (hrestN.filter _).filter _
            · exact (hvN.filter _).filter _
            · intro a ha hb
              have ha2 := List.mem_filter.mp (List.mem_filter.mp ha).1
              have hb2 := List.mem_filter.mp (List.mem_filter.mp hb).1
              exact hrv a ha2.1 hb2.1
          exact ih i _ hmemC hnodC

theorem mem_setAdd {v u : Nat} {l : List Nat} : v ∈ setAdd u l ↔ v = u ∨ v ∈ l := by
  by_cases h : u ∈ l
  · simp only [setAdd, if_pos h]
    constructor
    · exact Or.inr
    · rintro (rfl | hv)
      · exact h
      · exact hv
  · simp [setAdd, if_neg h]

theorem enqueueUser_memEq (u : Nat) (mode : Mode) (o : EnqOutcomes) (st : BotState)
    (hm : memEq st) : memEq (enqueueUser u mode o st).state := by
  obtain ⟨hm1, hm2, hm3⟩ := hm
  rcases o with ⟨oF, oR⟩
  cases oF <;> cases oR <;> cases mode <;>
    unfold enqueueUser createWaitingRoomM <;>
    (repeat' split) <;>
    try exact ⟨hm1, hm2, hm3⟩
  all_goals
    refine ⟨?_, ?_, ?_⟩ <;> intro v hv <;>
      have h1 := hm1 v <;> have h2 := hm2 v <;> have h3 := hm3 v <;>
      simp [mem_setAdd, createSessionIdS] at hv ⊢ <;>
      tauto

/-- Claim C1 (corrected): the membership set equals the union of the
physical queue contents at the boundaries of the queue operations — after
any enqueue, after any remove_from_queue, and after a complete text pairing
pass whose external failures are all of the caught HTTP kind (with
duplicate-free queues) — but not at every observation point: inside a
pairing pass the popped ids stay in the membership set across the
suspension points of start_session until its cleanup block runs (see the
counterexample theorem). -/
theorem memEq_preserved_at_operation_boundaries :
    (∀ (u : Nat) (mode : Mode) (o : EnqOutcomes) (st : BotState),
        memEq st → memEq (enqueueUser u mode o st).state) ∧
    (∀ (u : Nat) (st : BotState), memEq st → memEq (removeFromQueue u st)) ∧
    (∀ (o : Nat → StartOutcomes) (st : BotState), (∀ j, noOther (o j)) →
        memEq st → (st.text_queue ++ st.voice_queue).Nodup →
        memEq (textPairerPass o st).state) := by
  refine ⟨enqueueUser_memEq, ?_, ?_⟩
  · intro u st hm
    obtain ⟨hm1, hm2, hm3⟩ := hm
    refine ⟨?_, ?_, ?_⟩ <;> intro v hv
    · rw [removeFromQueue_text_queue, removeFromQueue_voice_queue]
      rw [removeFromQueue_queued] at hv
      have h2 := List.mem_filter.mp hv
      rcases hm1 v h2.1 with h | h
      · exact Or.inl (List.mem_filter.mpr ⟨h, h2.2⟩)
      · exact Or.inr (List.mem_filter.mpr ⟨h, h2.2⟩)
    · rw [removeFromQueue_queued]
      rw [removeFromQueue_text_queue] at hv
      have h2 := List.mem_filter.mp hv
      exact List.mem_filter.mpr ⟨hm2 v h2.1, h2.2⟩
    · rw [removeFromQueue_queued]
      rw [removeFromQueue_voice_queue] at hv
      have h2 := List.mem_filter.mp hv
      exact List.mem_filter.mpr ⟨hm3 v h2.1, h2.2⟩
  · intro o st ho hm hn
    exact (textPairerLoop_memEq o ho st.text_queue.length 0 st hm hn).1

theorem memEq_preserved_at_operation_boundaries_witness :
    memEq (textPairerPass (fun _ => allOk) stC1).state :=
  memEq_preserved_at_operation_boundaries.2.2 (fun _ => allOk) stC1
    (fun _ => (by decide : noOther allOk)) (by decide) (by decide)

theorem eraseKey_cons_ne {α : Type} {k k2 : Nat} (h : k2 ≠ k) (v : α) (l : List (Nat × α)) :
    eraseKey k ((k2, v) :: l) = (k2, v) :: eraseKey k l := by
  simp [eraseKey, List.filter_cons, h]

theorem eraseKey_cons_self {α : Type} (k : Nat) (v : α) (l : List (Nat × α)) :
    eraseKey k ((k, v) :: l) = eraseKey k l := by
  simp [eraseKey, List.filter_cons]

theorem cleanup_insert_pair {L : List (Nat × SessionRec)} {u1 u2 : Nat} (a b : SessionRec)
    (h1 : lookupNat u1 L = none) (h2 : lookupNat u2 L = none) (hne : u1 ≠ u2) :
    eraseKey u2 (eraseKey u1 (setEntry u2 b (setEntry u1 a L))) = L := by
  have e1 : eraseKey u1 L = L := eraseKey_of_lookup_none h1
  have e2 : eraseKey u2 L = L := eraseKey_of_lookup_none h2
  rw [setEntry, setEntry, e1, eraseKey_cons_ne hne a, e2,
      eraseKey_cons_ne (fun h => hne h.symm) b, eraseKey_cons_self,
      eraseKey_cons_self, e1, e2]

theorem mem_setEntry {α : Type} {p : Nat × α} {k : Nat} {v : α} {l : List (Nat × α)} :
    p ∈ setEntry k v l ↔ p = (k, v) ∨ (p ∈ l ∧ p.1 ≠ k) := by
  simp [setEntry, List.mem_cons, mem_eraseKey]

theorem symm_insert {L : List (Nat × SessionRec)} {u1 u2 : Nat} (m : Mode) (t : Nat) (sid : String)
    (hs : ∀ p ∈ L, Option.map SessionRec.partner (lookupNat p.2.partner L) = some p.1)
    (h1 : lookupNat u1 L = none) (h2 : lookupNat u2 L = none) (hne : u1 ≠ u2) :
    ∀ p ∈ setEntry u2 ⟨u1, m, t, sid⟩ (setEntry u1 ⟨u2, m, t, sid⟩ L),
      Option.map SessionRec.partner
        (lookupNat p.2.partner (setEntry u2 ⟨u1, m, t, sid⟩ (setEntry u1 ⟨u2, m, t, sid⟩ L)))
        = some p.1 := by
  have href1 : ∀ p ∈ L, p.2.partner ≠ u1 := by
    intro p hp hc
    have hx := hs p hp
    rw [hc, h1] at hx
    simp at hx
  have href2 : ∀ p ∈ L, p.2.partner ≠ u2 := by
    intro p hp hc
    have hx := hs p hp
    rw [hc, h2] at hx
    simp at hx
  intro p hp
  rcases mem_setEntry.mp hp with rfl | ⟨hp2, hpne⟩
  · rw [show ((u2, (⟨u1, m, t, sid⟩ : SessionRec)) : Nat × SessionRec).2.partner = u1 from rfl,
        lookupNat_setEntry_ne hne, lookupNat_setEntry_self]
    rfl
  · rcases mem_setEntry.mp hp2 with rfl | ⟨hp3, hpne1⟩
    · rw [show ((u1, (⟨u2, m, t, sid⟩ : SessionRec)) : Nat × SessionRec).2.partner = u2 from rfl,
          lookupNat_setEntry_self]
      rfl
    · have hq1 : p.2.partner ≠ u1 := href1 p hp3
      have hq2 : p.2.partner ≠ u2 := href2 p hp3
      rw [lookupNat_setEntry_ne hq2, lookupNat_setEntry_ne hq1]
      exact hs p hp3

/-- Claim C2 (corrected): the session table is symmetric at every
observable point of voice session creation (the two entries are written in
one uninterrupted block) and at the completion of a successful text session
creation, which ends with mutual partner entries; but during text session
creation one entry is observable without its counterpart at the suspension
points between the two table writes (see the counterexample theorem). -/
theorem sessionSymm_outside_text_creation :
    (∀ (u1 u2 : Nat) (sid : String) (t : Nat) (o : StartOutcomes) (st : BotState),
        sessionSymm st → lookupNat u1 st.active_sessions = none →
        lookupNat u2 st.active_sessions = none → u1 ≠ u2 →
        (∀ s ∈ (createVoiceSession u1 u2 sid t o st).trace, sessionSymm s) ∧
        sessionSymm (createVoiceSession u1 u2 sid t o st).state) ∧
    (∀ (u1 u2 : Nat) (sid : String) (t : Nat) (st : BotState),
        sessionSymm st → lookupNat u1 st.active_sessions = none →
        lookupNat u2 st.active_sessions = none → u1 ≠ u2 →
        sessionSymm (createTextSession u1 u2 sid t allOk st).state ∧
        lookupNat u1 (createTextSession u1 u2 sid t allOk st).state.active_sessions
          = some ⟨u2, .text, t, sid⟩ ∧
        lookupNat u2 (createTextSession u1 u2 sid t allOk st).state.active_sessions
          = some ⟨u1, .text, t, sid⟩) := by
  constructor
  · intro u1 u2 sid t o st hs h1 h2 hne
    have hstA : sessionSymm
        { st with active_sessions := setEntry u2 ⟨u1, .voice, t, sid⟩
                    (setEntry u1 ⟨u2, .voice, t, sid⟩ st.active_sessions)
                  active_voice := sid :: st.active_voice.filter (fun x => x ≠ sid) } :=
      symm_insert .voice t sid hs h1 h2 hne
    have hclean : sessionSymm (sessionFailCleanup u1 u2 st) := by
      unfold sessionSymm
      rw [show (sessionFailCleanup u1 u2 st).active_sessions
            = eraseKey u2 (eraseKey u1 st.active_sessions) from rfl,
          eraseKey_of_lookup_none h1, eraseKey_of_lookup_none h2]
      exact hs
    have hclean2 : sessionSymm (sessionFailCleanup u1 u2
        { st with active_sessions := setEntry u2 ⟨u1, .voice, t, sid⟩
                    (setEntry u1 ⟨u2, .voice, t, sid⟩ st.active_sessions)
                  active_voice := sid :: st.active_voice.filter (fun x => x ≠ sid) }) := by
      unfold sessionSymm
      rw [show (sessionFailCleanup u1 u2
            { st with active_sessions := setEntry u2 ⟨u1, .voice, t, sid⟩
                        (setEntry u1 ⟨u2, .voice, t, sid⟩ st.active_sessions)
                      active_voice := sid :: st.active_voice.filter (fun x => x ≠ sid) }).active_sessions
            = eraseKey u2 (eraseKey u1 (setEntry u2 ⟨u1, .voice, t, sid⟩
                (setEntry u1 ⟨u2, .voice, t, sid⟩ st.active_sessions))) from rfl,
          cleanup_insert_pair _ _ h1 h2 hne]
      exact hs
    unfold createVoiceSession
    (repeat' split) <;>
      refine ⟨fun s hsm => ?_, ?_⟩ <;>
      first
        | (dsimp only at hsm
           fin_cases hsm <;> first | exact hs | exact hstA)
        | exact hs
        | exact hclean
        | exact hclean2
        | exact hstA
  · intro u1 u2 sid t st hs h1 h2 hne
    refine ⟨?_, ?_, ?_⟩
    · exact symm_insert .text t sid hs h1 h2 hne
    · show lookupNat u1 (setEntry u2 ⟨u1, .text, t, sid⟩
          (setEntry u1 ⟨u2, .text, t, sid⟩ st.active_sessions)) = some ⟨u2, .text, t, sid⟩
      rw [lookupNat_setEntry_ne hne, lookupNat_setEntry_self]
    · show lookupNat u2 (setEntry u2 ⟨u1, .text, t, sid⟩
          (setEntry u1 ⟨u2, .text, t, sid⟩ st.active_sessions)) = some ⟨u1, .text, t, sid⟩
      rw [lookupNat_setEntry_self]

theorem sessionSymm_outside_text_creation_witness :
    sessionSymm (createVoiceSession 1 2 "#0001" 0 allOk initialState).state :=
  (sessionSymm_outside_text_creation.1 1 2 "#0001" 0 allOk initialState
    (by decide) (by decide) (by decide) (by decide)).2

/-- Claim C3 (corrected): whenever participant a holds a session entry
whose partner id b is nonzero, end_session removes both entries in the same
uninterrupted block — every state observable during the call already lacks
both — and records the session duration exactly once; the truthiness guard
of the source skips partner removal only when the partner id is 0 (see the
counterexample theorem). -/
theorem endSession_removes_both_atomically
    (st : BotState) (a b : Nat) (m : Mode) (t : Nat) (sid : String) (o : XRes)
    (hs : sessionSymm st)
    (ha : lookupNat a st.active_sessions = some ⟨b, m, t, sid⟩)
    (hb0 : b ≠ 0) :
    lookupNat a (endSession a o st).state.active_sessions = none ∧
    lookupNat b (endSession a o st).state.active_sessions = none ∧
    (endSession a o st).state.duration_observations = st.duration_observations + 1 ∧
    (∀ s ∈ (endSession a o st).trace,
      lookupNat a s.active_sessions = none ∧ lookupNat b s.active_sessions = none) := by
  unfold endSession
  rw [ha]
  dsimp only
  by_cases hab : a = b
  · subst hab
    rw [if_neg (by simp [lookupNat_eraseKey_self])]
    cases m <;> cases o <;>
      refine ⟨by simp [lookupNat_eraseKey_self], by simp [lookupNat_eraseKey_self],
              rfl, fun s hsm => ?_⟩ <;>
      fin_cases hsm <;>
      exact ⟨by simp [lookupNat_eraseKey_self], by simp [lookupNat_eraseKey_self]⟩
  · have hmem := lookupNat_some_mem ha
    have hsb := hs _ hmem
    have hba : b ≠ a := fun h => hab h.symm
    rcases ho : lookupNat b st.active_sessions with _ | r
    · rw [ho] at hsb
      simp at hsb
    have hlk : lookupNat b (eraseKey a st.active_sessions) = some r := by
      rw [lookupNat_eraseKey_ne hba]
      exact ho
    rw [if_pos ⟨hb0, by rw [hlk]; rfl⟩]
    have g1 : lookupNat a (eraseKey b (eraseKey a st.active_sessions)) = none := by
      rw [lookupNat_eraseKey_ne hab]
      exact lookupNat_eraseKey_self a st.active_sessions
    have g2 : lookupNat b (eraseKey b (eraseKey a st.active_sessions)) = none :=
      lookupNat_eraseKey_self b (eraseKey a st.active_sessions)
    cases m <;> cases o <;>
      refine ⟨g1, g2, rfl, fun s hsm => ?_⟩ <;>
      fin_cases hsm <;>
      exact ⟨g1, g2⟩

theorem endSession_removes_both_atomically_witness :
    lookupNat 1 (endSession 1 .ok stSym12).state.active_sessions = none ∧
    lookupNat 2 (endSession 1 .ok stSym12).state.active_sessions = none :=
  have h := endSession_removes_both_atomically stSym12 1 2 .text 0 "#0001" .ok
    (by decide) (by decide) (by decide)
  ⟨h.1, h.2.1⟩

theorem cancelTimeout_clears (u : Nat) (r : TimeoutRegistry) (hc : timeoutsCoherent u r) :
    lookupNat u (cancelTimeout u r).user_timeouts = none ∧
    (∀ t ∈ (cancelTimeout u r).tasks, t.user = u → t.status ≠ .pending) := by
  unfold cancelTimeout
  rcases hl : lookupNat u r.user_timeouts with _ | tid
  · refine ⟨hl, ?_⟩
    intro t ht hu hp
    have hx := hc t ht hu hp
    rw [hl] at hx
    exact Option.noConfusion hx
  · refine ⟨lookupNat_eraseKey_self u r.user_timeouts, ?_⟩
    intro t ht hu hp
    unfold cancelTask at ht
    rcases List.mem_map.mp ht with ⟨t0, ht0, heq⟩
    subst heq
    by_cases hcnd : t0.tid = tid ∧ t0.status = .pending
    · rw [if_pos hcnd] at hp
      exact TaskStatus.noConfusion hp
    · rw [if_neg hcnd] at hp hu
      have hx := hc t0 ht0 hu hp
      rw [hl] at hx
      have : tid = t0.tid := by simpa using hx
      exact hcnd ⟨this.symm, hp⟩

theorem cancelTimeout_keeps_clear (u w : Nat) (r : TimeoutRegistry)
    (h1 : lookupNat u r.user_timeouts = none)
    (h2 : ∀ t ∈ r.tasks, t.user = u → t.status ≠ .pending) :
    lookupNat u (cancelTimeout w r).user_timeouts = none ∧
    (∀ t ∈ (cancelTimeout w r).tasks, t.user = u → t.status ≠ .pending) := by
  unfold cancelTimeout
  rcases hl : lookupNat w r.user_timeouts with _ | tid
  · exact ⟨h1, h2⟩
  · constructor
    · by_cases huw : u = w
      · subst huw
        exact lookupNat_eraseKey_self u r.user_timeouts
      · rw [lookupNat_eraseKey_ne huw]
        exact h1
    · intro t ht hu hp
      unfold cancelTask at ht
      rcases List.mem_map.mp ht with ⟨t0, ht0, heq⟩
      subst heq
      by_cases hcnd : t0.tid = tid ∧ t0.status = .pending
      · rw [if_pos hcnd] at hp
        exact TaskStatus.noConfusion hp
      · rw [if_neg hcnd] at hp hu
        exact h2 t0 ht0 hu hp

theorem cancelTimeout_coherent (u w : Nat) (r : TimeoutRegistry) (hne : u ≠ w)
    (hc : timeoutsCoherent u r) : timeoutsCoherent u (cancelTimeout w r) := by
  unfold timeoutsCoherent cancelTimeout
  rcases hl : lookupNat w r.user_timeouts with _ | tid
  · exact hc
  · intro t ht hu hp
    unfold cancelTask at ht
    rcases List.mem_map.mp ht with ⟨t0, ht0, heq⟩
    subst heq
    by_cases hcnd : t0.tid = tid ∧ t0.status = .pending
    · rw [if_pos hcnd] at hp
      exact TaskStatus.noConfusion hp
    · rw [if_neg hcnd] at hp hu ⊢
      rw [lookupNat_eraseKey_ne hne]
      exact hc t0 ht0 hu hp

theorem createTextSession_rollback (u1 u2 : Nat) (sid : String) (t : Nat)
    (o : StartOutcomes) (st : BotState)
    (h3 : o.oThread ≠ .otherErr) (h4 : o.oFetch1 ≠ .otherErr) (h5 : o.oAdd1 ≠ .otherErr)
    (h6 : o.oFetch2 ≠ .otherErr) (h7 : o.oAdd2 ≠ .otherErr) (h8 : o.oSend ≠ .otherErr)
    (hf : textFailed o) :
    (createTextSession u1 u2 sid t o st).raised = false ∧
    lookupNat u1 (createTextSession u1 u2 sid t o st).state.active_sessions = none ∧
    lookupNat u2 (createTextSession u1 u2 sid t o st).state.active_sessions = none ∧
    u1 ∉ (createTextSession u1 u2 sid t o st).state.queued_users ∧
    u2 ∉ (createTextSession u1 u2 sid t o st).state.queued_users := by
  unfold createTextSession
  (repeat' split) <;>
    first
      | exact ⟨rfl, (sessionFailCleanup_resets u1 u2 _).1,
          (sessionFailCleanup_resets u1 u2 _).2.1,
          (sessionFailCleanup_resets u1 u2 _).2.2.1,
          (sessionFailCleanup_resets u1 u2 _).2.2.2⟩
      | simp_all [textFailed]

theorem createVoiceSession_rollback (u1 u2 : Nat) (sid : String) (t : Nat)
    (o : StartOutcomes) (st : BotState) (hg : o.guildFound = true)
    (h3 : o.oCreate ≠ .otherErr) (h4 : o.oEdit ≠ .otherErr) (h5 : o.oInvite ≠ .otherErr)
    (hf : voiceFailed o) :
    (createVoiceSession u1 u2 sid t o st).raised = false ∧
    lookupNat u1 (createVoiceSession u1 u2 sid t o st).state.active_sessions = none ∧
    lookupNat u2 (createVoiceSession u1 u2 sid t o st).state.active_sessions = none ∧
    u1 ∉ (createVoiceSession u1 u2 sid t o st).state.queued_users ∧
    u2 ∉ (createVoiceSession u1 u2 sid t o st).state.queued_users := by
  unfold createVoiceSession
  (repeat' split) <;>
    first
      | exact ⟨rfl, (sessionFailCleanup_resets u1 u2 _).1,
          (sessionFailCleanup_resets u1 u2 _).2.1,
          (sessionFailCleanup_resets u1 u2 _).2.2.1,
          (sessionFailCleanup_resets u1 u2 _).2.2.2⟩
      | simp_all [voiceFailed]

/-- Claim C4 (corrected): for either mode, if the external session-resource
provisioning fails with an error of the caught HTTP family (and no call
raises outside that family), start_session ends with both participants
fully reset to IDLE — no session-table entry, no queue membership, no
waiting room, no registered or pending timeout — and nothing propagates;
but the rollback does not cover every possible provisioning failure: a
non-HTTP exception propagates uncaught and can leave a session-table entry
behind (see the counterexample theorem). -/
theorem startSession_httpFailure_rolls_back
    (u1 u2 : Nat) (mode : Mode) (o : StartOutcomes) (st : BotState)
    (hno : noOther o) (hg : o.guildFound = true)
    (hc1 : timeoutsCoherent u1 st.timeouts) (hc2 : timeoutsCoherent u2 st.timeouts)
    (hft : mode = .text → textFailed o) (hfv : mode = .voice → voiceFailed o) :
    (startSession u1 u2 mode o st).raised = false ∧
    idleFor u1 (startSession u1 u2 mode o st).state ∧
    idleFor u2 (startSession u1 u2 mode o st).state := by
  obtain ⟨hd1, hd2, hth, hf1, ha1, hf2, ha2, hs8, hcc, hee, hii⟩ := hno
  have H1 := waitingCleanupOne_ok u1 o.oDel1 st hd1
  have H2 := waitingCleanupOne_ok u2 o.oDel2 (waitingCleanupOne u1 o.oDel1 st).state hd2
  have hwr1 : u1 ∉ (waitingCleanupOne u2 o.oDel2
      (waitingCleanupOne u1 o.oDel1 st).state).state.waiting_rooms :=
    fun h => H1.2.2.2.1 (H2.2.2.2.2 u1 h)
  have hwr2 : u2 ∉ (waitingCleanupOne u2 o.oDel2
      (waitingCleanupOne u1 o.oDel1 st).state).state.waiting_rooms :=
    H2.2.2.2.1
  have htimeq : (waitingCleanupOne u2 o.oDel2
      (waitingCleanupOne u1 o.oDel1 st).state).state.timeouts
      = cancelTimeout u2 (cancelTimeout u1 st.timeouts) := by
    rw [H2.2.2.1, H1.2.2.1]
  have hcl1a := cancelTimeout_clears u1 st.timeouts hc1
  have hcl1 := cancelTimeout_keeps_clear u1 u2 (cancelTimeout u1 st.timeouts) hcl1a.1 hcl1a.2
  have hcl2 : lookupNat u2 (cancelTimeout u2
      (cancelTimeout u1 st.timeouts)).user_timeouts = none ∧
      (∀ t ∈ (cancelTimeout u2 (cancelTimeout u1 st.timeouts)).tasks,
        t.user = u2 → t.status ≠ .pending) := by
    by_cases h12 : u2 = u1
    · subst h12
      exact hcl1
    · exact cancelTimeout_clears u2 (cancelTimeout u1 st.timeouts)
        (cancelTimeout_coherent u2 u1 st.timeouts h12 hc2)
  unfold startSession
  simp only [H1.1, H2.1, Bool.false_eq_true, if_false]
  cases mode
  · have R := createTextSession_rollback u1 u2
      (createSessionIdS (waitingCleanupOne u2 o.oDel2
        (waitingCleanupOne u1 o.oDel1 st).state).state).1 0 o
      (createSessionIdS (waitingCleanupOne u2 o.oDel2
        (waitingCleanupOne u1 o.oDel1 st).state).state).2
      hth hf1 ha1 hf2 ha2 hs8 (hft rfl)
    refine ⟨R.1, ⟨R.2.1, R.2.2.2.1, ?_, ?_, ?_⟩, ⟨R.2.2.1, R.2.2.2.2, ?_, ?_, ?_⟩⟩
    · rw [createTextSession_waiting]
      exact hwr1
    · rw [createTextSession_timeouts]
      show lookupNat u1 ((waitingCleanupOne u2 o.oDel2
        (waitingCleanupOne u1 o.oDel1 st).state).state.timeouts).user_timeouts = none
      rw [htimeq]
      exact hcl1.1
    · rw [createTextSession_timeouts]
      show ∀ t ∈ ((waitingCleanupOne u2 o.oDel2
        (waitingCleanupOne u1 o.oDel1 st).state).state.timeouts).tasks,
        t.user = u1 → t.status ≠ .pending
      rw [htimeq]
      exact hcl1.2
    · rw [createTextSession_waiting]
      exact hwr2
    · rw [createTextSession_timeouts]
      show lookupNat u2 ((waitingCleanupOne u2 o.oDel2
        (waitingCleanupOne u1 o.oDel1 st).state).state.timeouts).user_timeouts = none
      rw [htimeq]
      exact hcl2.1
    · rw [createTextSession_timeouts]
      show ∀ t ∈ ((waitingCleanupOne u2 o.oDel2
        (waitingCleanupOne u1 o.oDel1 st).state).state.timeouts).tasks,
        t.user = u2 → t.status ≠ .pending
      rw [htimeq]
      exact hcl2.2
  · have R := createVoiceSession_rollback u1 u2
      (createSessionIdS (waitingCleanupOne u2 o.oDel2
        (waitingCleanupOne u1 o.oDel1 st).state).state).1 0 o
      (createSessionIdS (waitingCleanupOne u2 o.oDel2
        (waitingCleanupOne u1 o.oDel1 st).state).state).2
      hg hcc hee hii (hfv rfl)
    refine ⟨R.1, ⟨R.2.1, R.2.2.2.1, ?_, ?_, ?_⟩, ⟨R.2.2.1, R.2.2.2.2, ?_, ?_, ?_⟩⟩
    · rw [createVoiceSession_waiting]
      exact hwr1
    · rw [createVoiceSession_timeouts]
      show lookupNat u1 ((waitingCleanupOne u2 o.oDel2
        (waitingCleanupOne u1 o.oDel1 st).state).state.timeouts).user_timeouts = none
      rw [htimeq]
      exact hcl1.1
    · rw [createVoiceSession_timeouts]
      show ∀ t ∈ ((waitingCleanupOne u2 o.oDel2
        (waitingCleanupOne u1 o.oDel1 st).state).state.timeouts).tasks,
        t.user = u1 → t.status ≠ .pending
      rw [htimeq]
      exact hcl1.2
    · rw [createVoiceSession_waiting]
      exact hwr2
    · rw [createVoiceSession_timeouts]
      show lookupNat u2 ((waitingCleanupOne u2 o.oDel2
        (waitingCleanupOne u1 o.oDel1 st).state).state.timeouts).user_timeouts = none
      rw [htimeq]
      exact hcl2.1
    · rw [createVoiceSession_timeouts]
      show ∀ t ∈ ((waitingCleanupOne u2 o.oDel2
        (waitingCleanupOne u1 o.oDel1 st).state).state.timeouts).tasks,
        t.user = u2 → t.status ≠ .pending
      rw [htimeq]
      exact hcl2.2

theorem startSession_httpFailure_rolls_back_witness :
    (startSession 1 2 .text { oThread := .httpErr } stC4).raised = false ∧
    idleFor 1 (startSession 1 2 .text { oThread := .httpErr } stC4).state ∧
    idleFor 2 (startSession 1 2 .text { oThread := .httpErr } stC4).state :=
  startSession_httpFailure_rolls_back 1 2 .text { oThread := .httpErr } stC4
    (by decide) (by decide) (by decide) (by decide)
    (fun _ => (by decide : textFailed { oThread := .httpErr }))
    (fun h => by exact absurd h (by decide))

/-- Claim C7 (corrected): enqueue_user returns True exactly when the
participant is neither in a session nor already queued and both external
calls of the enqueue path succeed; on success it appends the id at the tail
of the chosen mode's FIFO queue, adds it to the membership set, records the
waiting-room handle and registers a search timeout.  False is also returned
on a provisioning failure, so returning False does not imply the
participant was already queued or in a session (see the counterexample
theorem). -/
theorem enqueue_result_characterization :
    (∀ (u : Nat) (mode : Mode) (o : EnqOutcomes) (st : BotState),
        (enqueueUser u mode o st).ok = true ↔
          ((lookupNat u st.active_sessions).isSome = false ∧ u ∉ st.queued_users ∧
           o.oFetch = .ok ∧ o.oRoom = .ok)) ∧
    (∀ (u : Nat) (mode : Mode) (o : EnqOutcomes) (st : BotState),
        (enqueueUser u mode o st).ok = true →
          (u ∈ (enqueueUser u mode o st).state.queued_users ∧
           u ∈ (enqueueUser u mode o st).state.waiting_rooms ∧
           (lookupNat u (enqueueUser u mode o st).state.timeouts.user_timeouts).isSome
             = true ∧
           (mode = .text →
             (enqueueUser u mode o st).state.text_queue = st.text_queue ++ [u]) ∧
           (mode = .voice →
             (enqueueUser u mode o st).state.voice_queue = st.voice_queue ++ [u]))) := by
  constructor
  · intro u mode o st
    rcases o with ⟨oF, oR⟩
    cases oF <;> cases oR <;>
      unfold enqueueUser createWaitingRoomM <;>
      (repeat' split) <;>
      simp_all
  · intro u mode o st
    rcases o with ⟨oF, oR⟩
    cases oF <;> cases oR <;> cases mode <;>
      unfold enqueueUser createWaitingRoomM <;>
      (repeat' split) <;>
      intro h <;>
      simp_all [mem_setAdd, registerTimeout, lookupNat_setEntry_self, createSessionIdS]

theorem enqueue_result_characterization_witness :
    (1 : Nat) ∈ (enqueueUser 1 .text allOkEnq initialState).state.queued_users :=
  (enqueue_result_characterization.2 1 .text allOkEnq initialState (by decide)).1

/-- Claim C10 (confirmed): session ids come from the single shared counter
(started at 1): create_session_id returns the current value formatted and
advances by one; every enqueue that reaches waiting-room creation consumes
exactly one counter value even when the later queue insertion fails; hence
successive sessions carry strictly increasing but not necessarily
consecutive numbers — in the scenario below the waiting rooms consume
values 1, 2, 4 and 5 and the two sessions get ids 3 and 6 — and the format
is a hash sign with the value zero-padded to width 4. -/
theorem session_counter_shared_strictly_increasing :
    (∀ st : BotState, createSessionIdS st = (formatSessionId st.session_counter,
        { st with session_counter := st.session_counter + 1 })) ∧
    (∀ (u : Nat) (mode : Mode) (oR : XRes) (st : BotState),
        (lookupNat u st.active_sessions).isSome = false → u ∉ st.queued_users →
        (enqueueUser u mode ⟨.ok, oR⟩ st).state.session_counter
          = st.session_counter + 1) ∧
    initialState.session_counter = 1 ∧
    (lookupNat 1 c10p2.active_sessions).map SessionRec.session_id = some "#0003" ∧
    (lookupNat 3 c10p2.active_sessions).map SessionRec.session_id = some "#0006" ∧
    c10p2.session_counter = 7 ∧
    formatSessionId 3 = "#0003" ∧
    formatSessionId 12345 = "#12345" := by
  refine ⟨fun st => rfl, ?_, by decide, by decide, by decide, by decide, by decide, by decide⟩
  intro u mode oR st h1 h2
  cases oR <;> cases mode <;>
    unfold enqueueUser createWaitingRoomM <;>
    (repeat' split) <;>
    simp_all [createSessionIdS]

theorem session_counter_shared_strictly_increasing_witness :
    (enqueueUser 1 .text ⟨.ok, .ok⟩ initialState).state.session_counter
      = initialState.session_counter + 1 :=
  session_counter_shared_strictly_increasing.2.1 1 .text .ok initialState
    (by decide) (by decide)
